import Mathlib

/-!
# Mini-Voyager interfacing: charlieplexed LEDs, seven-segment display, LCD

A shallow embedding of `Charlieplexed_LEDs.c`, `Seven_Segment_Display.c` and
`LCD_Display.c` (MSP430G2553 firmware) together with theorems about the refresh
engines and the LCD write protocol.

Conventions of the embedding:

* a C `int` is a Lean `Int`; `a & b` is `Int.land a b`, `a >> 1` is the
  arithmetic shift `a >>> (1 : Nat)` and `1 << i` is `1 <<< i`;
* the sum `ddram_addr+=cpos` of `LCD_Write_String`, whose operand `cpos` is any
  `int`, is the 16-bit sum `addInt`; the increments of the cursors, of the
  counter digits and of `len` stay inside the range of `int` on the inputs the
  theorems cover and are plain sums;
* an 8-bit port register (`P1OUT`, `P2OUT`, `P2DIR`, ...) is a `Nat` holding its
  bit pattern; `R |= B` and `R &= ~B` are `regSet` and `regClr`, which keep the
  low eight bits the way the store to an 8-bit register does;
* pin `k` of a port is bit `k` of the register, read with `Nat.testBit`;
* a global array `int a[4]` is an `Arr4`; indexing outside `0..3` has no value;
* `P2OUT` is volatile: in `LCD_Display` the state keeps the value of `P2OUT`
  after every store (`stores`) and the arguments of every call of `LCD_Write`
  (`calls`); a `char*` is the list of the characters from the pointer on;
* `__delay_cycles` changes no state and is left out;
* the interrupt handler `TMR0` takes the outcome of its test
  `TAIV==TA0IV_TAIFG` as a `Bool`; a timer tick is `TMR0 true`.  The timer
  control register `TACTL` is not part of the modelled state.
-/

/-! ## Port registers -/

/-- The statement `R |= B` on an 8-bit register `R`. -/
def regSet (r b : Nat) : Nat := (r ||| b) % 256

/-- The statement `R &= ~B` on an 8-bit register `R`: `~B` is the complement of
the 16-bit constant `B`, and the store keeps the low eight bits. -/
def regClr (r b : Nat) : Nat := (r &&& (0xFFFF ^^^ b)) % 256

def BIT0 : Nat := 0x0001
def BIT1 : Nat := 0x0002
def BIT2 : Nat := 0x0004
def BIT3 : Nat := 0x0008
def BIT4 : Nat := 0x0010
def BIT5 : Nat := 0x0020
def BIT6 : Nat := 0x0040
def BIT7 : Nat := 0x0080

/-! ## Charlieplexed_LEDs.c -/

namespace Charlieplexed_LEDs

def CHARLIE_0_B : Nat := BIT0
def CHARLIE_1_B : Nat := BIT1
def CHARLIE_2_B : Nat := BIT2

/-- The registers and globals of `Charlieplexed_LEDs.c`.  The three CHARLIE pins
all live on port 2 (`CHARLIE_k_D` is `P2DIR`, `CHARLIE_k_O` is `P2OUT`). -/
structure State where
  P2DIR : Nat
  P2OUT : Nat
  charlie_val : Int
  charlie_iter : Int
  deriving DecidableEq, Repr

/-- The function `charlie(val, iter)`: the `switch` has no `default`, so a slot
outside `0..5` falls through it. -/
def charlie (val iter : Int) (s : State) : State :=
  let s1 : State :=
    if Int.land val (1 <<< iter) ≠ 0 then
      match iter with
      | 3 =>
        let s := { s with P2DIR := regSet s.P2DIR CHARLIE_0_B }
        let s := { s with P2DIR := regSet s.P2DIR CHARLIE_1_B }
        let s := { s with P2DIR := regClr s.P2DIR CHARLIE_2_B }
        let s := { s with P2OUT := regSet s.P2OUT CHARLIE_0_B }
        { s with P2OUT := regClr s.P2OUT CHARLIE_1_B }
      | 4 =>
        let s := { s with P2DIR := regSet s.P2DIR CHARLIE_0_B }
        let s := { s with P2DIR := regSet s.P2DIR CHARLIE_1_B }
        let s := { s with P2DIR := regClr s.P2DIR CHARLIE_2_B }
        let s := { s with P2OUT := regSet s.P2OUT CHARLIE_1_B }
        { s with P2OUT := regClr s.P2OUT CHARLIE_0_B }
      | 0 =>
        let s := { s with P2DIR := regSet s.P2DIR CHARLIE_1_B }
        let s := { s with P2DIR := regSet s.P2DIR CHARLIE_2_B }
        let s := { s with P2DIR := regClr s.P2DIR CHARLIE_0_B }
        let s := { s with P2OUT := regSet s.P2OUT CHARLIE_1_B }
        { s with P2OUT := regClr s.P2OUT CHARLIE_2_B }
      | 1 =>
        let s := { s with P2DIR := regSet s.P2DIR CHARLIE_1_B }
        let s := { s with P2DIR := regSet s.P2DIR CHARLIE_2_B }
        let s := { s with P2DIR := regClr s.P2DIR CHARLIE_0_B }
        let s := { s with P2OUT := regSet s.P2OUT CHARLIE_2_B }
        { s with P2OUT := regClr s.P2OUT CHARLIE_1_B }
      | 2 =>
        let s := { s with P2DIR := regSet s.P2DIR CHARLIE_2_B }
        let s := { s with P2DIR := regSet s.P2DIR CHARLIE_0_B }
        let s := { s with P2DIR := regClr s.P2DIR CHARLIE_1_B }
        let s := { s with P2OUT := regSet s.P2OUT CHARLIE_2_B }
        { s with P2OUT := regClr s.P2OUT CHARLIE_0_B }
      | 5 =>
        let s := { s with P2DIR := regSet s.P2DIR CHARLIE_2_B }
        let s := { s with P2DIR := regSet s.P2DIR CHARLIE_0_B }
        let s := { s with P2DIR := regClr s.P2DIR CHARLIE_1_B }
        let s := { s with P2OUT := regSet s.P2OUT CHARLIE_0_B }
        { s with P2OUT := regClr s.P2OUT CHARLIE_2_B }
      | _ => s
    else s
  if Int.land val 0x3F = 0 then
    let s := { s1 with P2DIR := regClr s1.P2DIR CHARLIE_0_B }
    let s := { s with P2DIR := regClr s.P2DIR CHARLIE_1_B }
    { s with P2DIR := regClr s.P2DIR CHARLIE_2_B }
  else s1

/-- The interrupt handler `TMR0`; `overflow` is the outcome of the test
`TAIV==TA0IV_TAIFG`. -/
def TMR0 (overflow : Bool) (s : State) : State :=
  if overflow then
    let s := charlie s.charlie_val s.charlie_iter s
    let s := { s with charlie_iter := s.charlie_iter + 1 }
    if s.charlie_iter = 6 then { s with charlie_iter := 0 } else s
  else s

/-- Timer ticks: `ticks k s` is the state after `k` overflow interrupts with no
main-loop write in between. -/
def ticks : Nat → State → State
  | 0, s => s
  | k + 1, s => TMR0 true (ticks k s)

/-- The slot rendered by tick number `k + 1`: `TMR0` hands `charlie` the value
`charlie_iter` holds on entry, that is after the first `k` ticks. -/
def renderedAt (k : Nat) (s : State) : Int := (ticks k s).charlie_iter

/-- Pin `k` is configured as an output (bit `k` of `P2DIR`). -/
def pinOut (s : State) (k : Nat) : Bool := s.P2DIR.testBit k

/-- Output level of pin `k` (bit `k` of `P2OUT`). -/
def pinHigh (s : State) (k : Nat) : Bool := s.P2OUT.testBit k

/-- All three CHARLIE pins are inputs (high impedance). -/
def allHiZ (s : State) : Prop :=
  pinOut s 0 = false ∧ pinOut s 1 = false ∧ pinOut s 2 = false

instance (s : State) : Decidable (allHiZ s) := by
  unfold allHiZ; infer_instance

/-- Pins `a` and `b` are outputs at opposite levels and pin `c` is an input. -/
def drivenPair (s : State) (a b c : Nat) : Prop :=
  pinOut s a = true ∧ pinOut s b = true ∧ pinOut s c = false ∧ pinHigh s a ≠ pinHigh s b

instance (s : State) (a b c : Nat) : Decidable (drivenPair s a b c) := by
  unfold drivenPair; infer_instance

/-- The three pins are all inputs, or exactly two of them are outputs with
opposite levels and the third is an input. -/
def pinsSafe (s : State) : Prop :=
  allHiZ s ∨ drivenPair s 1 2 0 ∨ drivenPair s 0 2 1 ∨ drivenPair s 0 1 2

instance (s : State) : Decidable (pinsSafe s) := by
  unfold pinsSafe; infer_instance

/-- The six LEDs of a three-pin charlieplex, one per ordered pair
(anode pin, cathode pin) of distinct pins. -/
def ledPairs : List (Nat × Nat) := [(0, 1), (1, 0), (0, 2), (2, 0), (1, 2), (2, 1)]

/-- An LED conducts when its anode pin is driven high and its cathode pin is
driven low. -/
def conducts (s : State) (led : Nat × Nat) : Bool :=
  pinOut s led.1 && pinHigh s led.1 && pinOut s led.2 && !pinHigh s led.2

/-- States the program can be in at an instruction boundary of the main loop:
it starts with the three pins as inputs and cursor 0, the main loop may store
any value in `charlie_val`, and the timer may tick. -/
inductive Reachable : State → Prop
  | start (s : State) : allHiZ s → s.charlie_iter = 0 → Reachable s
  | write (s : State) (v : Int) : Reachable s → Reachable { s with charlie_val := v }
  | tick (s : State) : Reachable s → Reachable (TMR0 true s)

/-- One row of the lookup table: the pin driven high, the pin driven low and
the pin left floating. -/
structure Drive where
  hi : Nat
  lo : Nat
  flt : Nat
  deriving DecidableEq, Repr

/-- The six-entry lookup table, indexed by slot, that the spec reads the
`switch` of `charlie` as. -/
def slotTable : List Drive :=
  [⟨1, 2, 0⟩, ⟨2, 1, 0⟩, ⟨2, 0, 1⟩, ⟨0, 1, 2⟩, ⟨1, 0, 2⟩, ⟨0, 2, 1⟩]

/-- The pins realise the table row `d`: `d.hi` and `d.lo` are outputs, high and
low respectively, and `d.flt` is an input. -/
def drives (s : State) (d : Drive) : Prop :=
  pinOut s d.hi = true ∧ pinOut s d.lo = true ∧ pinOut s d.flt = false ∧
    pinHigh s d.hi = true ∧ pinHigh s d.lo = false

instance (s : State) (d : Drive) : Decidable (drives s d) := by
  unfold drives; infer_instance

/-- The pins are in the drive configuration of slot `i`. -/
def inSlot (s : State) (i : Nat) : Prop :=
  ∃ d, slotTable[i]? = some d ∧ drives s d

/-- The observable pin state of the three CHARLIE pins: bits 0..2 of `P2DIR`
and bits 0..2 of `P2OUT`. -/
def pins (s : State) : Nat × Nat := (s.P2DIR % 8, s.P2OUT % 8)

end Charlieplexed_LEDs

/-! ## Seven_Segment_Display.c -/

namespace Seven_Segment_Display

def SSD_A_B : Nat := BIT0
def SSD_B_B : Nat := BIT1
def SSD_C_B : Nat := BIT2
def SSD_D_B : Nat := BIT3
def SSD_E_B : Nat := BIT4
def SSD_F_B : Nat := BIT5
def SSD_G_B : Nat := BIT6
def SSD_DP_B : Nat := BIT7
def SSD_0_B : Nat := BIT0
def SSD_1_B : Nat := BIT1
def SSD_2_B : Nat := BIT2
def SSD_3_B : Nat := BIT3

/-- A global `int a[4]`. -/
structure Arr4 where
  e0 : Int
  e1 : Int
  e2 : Int
  e3 : Int
  deriving DecidableEq, Repr

/-- The read `a[i]`; an index outside `0..3` is outside the array. -/
def Arr4.get? (a : Arr4) (i : Int) : Option Int :=
  match i with
  | 0 => some a.e0
  | 1 => some a.e1
  | 2 => some a.e2
  | 3 => some a.e3
  | _ => none

/-- The registers and globals of `Seven_Segment_Display.c`: the segments A..G
and DP are pins 0..7 of port 2, the digit enables D0..D3 are pins 0..3 of
port 1. -/
structure State where
  P1DIR : Nat
  P1OUT : Nat
  P2DIR : Nat
  P2OUT : Nat
  ssd_val : Arr4
  ssd_dot : Arr4
  ssd_iter : Int
  deriving DecidableEq, Repr

/-- The function `Seg7`. -/
def Seg7 (a : Int) : Int :=
  match a with
  | 0 => 0x00FC
  | 1 => 0x0060
  | 2 => 0x00DA
  | 3 => 0x00F2
  | 4 => 0x0066
  | 5 => 0x00B6
  | 6 => 0x00BE
  | 7 => 0x00E0
  | 8 => 0x00FE
  | 9 => 0x00F6
  | _ => 0x00

/-- The statement `P1OUT |= b`. -/
def setP1OUT (b : Nat) (s : State) : State := { s with P1OUT := regSet s.P1OUT b }

/-- The statement `P1OUT &= ~b`. -/
def clrP1OUT (b : Nat) (s : State) : State := { s with P1OUT := regClr s.P1OUT b }

/-- The statement `P2OUT |= b`. -/
def setP2OUT (b : Nat) (s : State) : State := { s with P2OUT := regSet s.P2OUT b }

/-- The statement `P2OUT &= ~b`. -/
def clrP2OUT (b : Nat) (s : State) : State := { s with P2OUT := regClr s.P2OUT b }

/-- The statement `P1DIR |= b`. -/
def setP1DIR (b : Nat) (s : State) : State := { s with P1DIR := regSet s.P1DIR b }

/-- The statement `P2DIR |= b`. -/
def setP2DIR (b : Nat) (s : State) : State := { s with P2DIR := regSet s.P2DIR b }

/-- The block `//Turn off all the segments` of `update7Seg`. -/
def segmentsOff (s : State) : State :=
  let s := clrP2OUT SSD_A_B s
  let s := clrP2OUT SSD_B_B s
  let s := clrP2OUT SSD_C_B s
  let s := clrP2OUT SSD_D_B s
  let s := clrP2OUT SSD_E_B s
  let s := clrP2OUT SSD_F_B s
  let s := clrP2OUT SSD_G_B s
  clrP2OUT SSD_DP_B s

/-- The block `switch(iter) //Choose the proper digit` of `update7Seg`; the
`switch` has no `default`. -/
def chooseDigit (iter : Int) (s : State) : State :=
  match iter with
  | 0 =>
    let s := setP1OUT SSD_0_B s
    let s := clrP1OUT SSD_1_B s
    let s := clrP1OUT SSD_2_B s
    clrP1OUT SSD_3_B s
  | 1 =>
    let s := setP1OUT SSD_1_B s
    let s := clrP1OUT SSD_0_B s
    let s := clrP1OUT SSD_2_B s
    clrP1OUT SSD_3_B s
  | 2 =>
    let s := setP1OUT SSD_2_B s
    let s := clrP1OUT SSD_0_B s
    let s := clrP1OUT SSD_1_B s
    clrP1OUT SSD_3_B s
  | 3 =>
    let s := setP1OUT SSD_3_B s
    let s := clrP1OUT SSD_0_B s
    let s := clrP1OUT SSD_1_B s
    clrP1OUT SSD_2_B s
  | _ => s

/-- The block `//Turn on the required segments` of `update7Seg`. -/
def segmentsOn (disp : Int) (s : State) : State :=
  let disp := disp >>> (1 : Nat)
  let s := if Int.land disp 0x01 ≠ 0 then setP2OUT SSD_G_B s else s
  let disp := disp >>> (1 : Nat)
  let s := if Int.land disp 0x01 ≠ 0 then setP2OUT SSD_F_B s else s
  let disp := disp >>> (1 : Nat)
  let s := if Int.land disp 0x01 ≠ 0 then setP2OUT SSD_E_B s else s
  let disp := disp >>> (1 : Nat)
  let s := if Int.land disp 0x01 ≠ 0 then setP2OUT SSD_D_B s else s
  let disp := disp >>> (1 : Nat)
  let s := if Int.land disp 0x01 ≠ 0 then setP2OUT SSD_C_B s else s
  let disp := disp >>> (1 : Nat)
  let s := if Int.land disp 0x01 ≠ 0 then setP2OUT SSD_B_B s else s
  let disp := disp >>> (1 : Nat)
  if Int.land disp 0x01 ≠ 0 then setP2OUT SSD_A_B s else s

/-- The function `update7Seg(iter)`, block by block; it has no result when
`iter` indexes outside `ssd_val` and `ssd_dot`.  `SSD_x_O` is `P2OUT` for the
segments and `P1OUT` for the digit enables. -/
def update7Seg (iter : Int) (s : State) : Option State := do
  let disp ← (s.ssd_val.get? iter).map Seg7
  let s := segmentsOff s
  let s := chooseDigit iter s
  let s := segmentsOn disp s
  let dot ← s.ssd_dot.get? iter
  pure (if dot ≠ 0 then setP2OUT SSD_DP_B s else s)

/-- The function `ssd_init`. -/
def ssd_init (s : State) : State :=
  let s := setP2DIR SSD_A_B s
  let s := setP2DIR SSD_B_B s
  let s := setP2DIR SSD_C_B s
  let s := setP2DIR SSD_D_B s
  let s := setP2DIR SSD_E_B s
  let s := setP2DIR SSD_F_B s
  let s := setP2DIR SSD_G_B s
  let s := setP2DIR SSD_DP_B s
  let s := setP1DIR SSD_0_B s
  let s := setP1DIR SSD_1_B s
  let s := setP1DIR SSD_2_B s
  setP1DIR SSD_3_B s

/-- One iteration of the `while(1)` loop of `main` (after the delay): the
increment of `ssd_val[0]` and the four carry tests, on the array alone. -/
def counterStep (a : Arr4) : Arr4 :=
  let a := { a with e0 := a.e0 + 1 }
  let a := if a.e0 = 10 then { a with e1 := a.e1 + 1, e0 := 0 } else a
  let a := if a.e1 = 10 then { a with e2 := a.e2 + 1, e1 := 0 } else a
  let a := if a.e2 = 10 then { a with e3 := a.e3 + 1, e2 := 0 } else a
  if a.e3 = 10 then { a with e3 := 0 } else a

/-- One iteration of the `while(1)` loop of `main`, on the whole state. -/
def mainLoopBody (s : State) : State :=
  { s with ssd_val := counterStep s.ssd_val }

/-- The interrupt handler `TMR0`; `overflow` is the outcome of the test
`TAIV==TA0IV_TAIFG`. -/
def TMR0 (overflow : Bool) (s : State) : Option State :=
  if overflow then do
    let s ← update7Seg s.ssd_iter s
    let s := { s with ssd_iter := s.ssd_iter + 1 }
    pure (if s.ssd_iter = 4 then { s with ssd_iter := 0 } else s)
  else pure s

/-- Timer ticks: the state after `k` overflow interrupts with no main-loop
write in between. -/
def ticks : Nat → State → Option State
  | 0, s => some s
  | k + 1, s => (ticks k s).bind (TMR0 true)

/-- The slot rendered by tick number `k + 1`: `TMR0` hands `update7Seg` the
value `ssd_iter` holds on entry, that is after the first `k` ticks; there is
none when that tick has no result. -/
def renderedAt (k : Nat) (s : State) : Option Int :=
  (ticks k s).bind fun t => (TMR0 true t).map fun _ => t.ssd_iter

/-- The number shown: `ssd_val[0]` is the least significant decimal digit. -/
def value (a : Arr4) : Int := a.e0 + 10 * a.e1 + 100 * a.e2 + 1000 * a.e3

/-- Every element of the array is a decimal digit. -/
def digits (a : Arr4) : Prop :=
  (0 ≤ a.e0 ∧ a.e0 ≤ 9) ∧ (0 ≤ a.e1 ∧ a.e1 ≤ 9) ∧ (0 ≤ a.e2 ∧ a.e2 ≤ 9) ∧ (0 ≤ a.e3 ∧ a.e3 ≤ 9)

instance (a : Arr4) : Decidable (digits a) := by
  unfold digits; infer_instance

/-- The pin state of the display: the segment port `P2OUT` and the four digit
enables `P1OUT & 0x0F`. -/
def pinState (s : State) : Nat × Nat := (s.P2OUT, s.P1OUT &&& 0x0F)

/-- States the program can be in at an instruction boundary of the main loop:
`ssd_iter` starts at 0, the main loop may store anything in `ssd_val` and
`ssd_dot`, and the timer may tick. -/
inductive Reachable : State → Prop
  | start (s : State) : s.ssd_iter = 0 → Reachable s
  | write (s : State) (v d : Arr4) : Reachable s → Reachable { s with ssd_val := v, ssd_dot := d }
  | tick (s t : State) : Reachable s → TMR0 true s = some t → Reachable t

/-- The main-loop iteration assignment by assignment: `cur` is the array, `seen`
lists the array after each assignment made so far, which is what a timer tick
arriving right after that assignment reads. -/
structure Stepped where
  cur : Arr4
  seen : List Arr4
  deriving DecidableEq, Repr

/-- One assignment to `ssd_val`. -/
def Stepped.assign (f : Arr4 → Arr4) (x : Stepped) : Stepped :=
  ⟨f x.cur, x.seen ++ [f x.cur]⟩

/-- One iteration of the `while(1)` loop of `main`, one assignment at a time. -/
def counterStepwise (a : Arr4) : Stepped :=
  let x : Stepped := ⟨a, []⟩
  let x := x.assign fun a => { a with e0 := a.e0 + 1 }
  let x :=
    if x.cur.e0 = 10 then
      let x := x.assign fun a => { a with e1 := a.e1 + 1 }
      x.assign fun a => { a with e0 := 0 }
    else x
  let x :=
    if x.cur.e1 = 10 then
      let x := x.assign fun a => { a with e2 := a.e2 + 1 }
      x.assign fun a => { a with e1 := 0 }
    else x
  let x :=
    if x.cur.e2 = 10 then
      let x := x.assign fun a => { a with e3 := a.e3 + 1 }
      x.assign fun a => { a with e2 := 0 }
    else x
  if x.cur.e3 = 10 then x.assign fun a => { a with e3 := 0 } else x

end Seven_Segment_Display

/-! ## LCD_Display.c -/

namespace LCD_Display

def LCD_D7_B : Nat := BIT3
def LCD_D6_B : Nat := BIT2
def LCD_D5_B : Nat := BIT1
def LCD_D4_B : Nat := BIT0
def LCD_E_B : Nat := BIT4
def LCD_RS_B : Nat := BIT5

/-- The registers of `LCD_Display.c` (all six LCD pins are on port 2) and two
records of what the program has done so far: `stores` holds the value of the
volatile register `P2OUT` after each store to it, oldest first, and `calls`
holds the arguments `(di, val)` of each call of `LCD_Write`, oldest first. -/
structure State where
  P2DIR : Nat
  P2OUT : Nat
  stores : List Nat
  calls : List (Int × Int)
  deriving DecidableEq, Repr

/-- The statement `P2OUT |= b`. -/
def setP2OUT (b : Nat) (s : State) : State :=
  { s with P2OUT := regSet s.P2OUT b, stores := s.stores ++ [regSet s.P2OUT b] }

/-- The statement `P2OUT &= ~b`. -/
def clrP2OUT (b : Nat) (s : State) : State :=
  { s with P2OUT := regClr s.P2OUT b, stores := s.stores ++ [regClr s.P2OUT b] }

/-- The statement `P2DIR |= b`. -/
def setP2DIR (b : Nat) (s : State) : State := { s with P2DIR := regSet s.P2DIR b }

/-- The function `LCD_Enable`; the delays change no state. -/
def LCD_Enable (s : State) : State :=
  let s := setP2OUT LCD_E_B s
  clrP2OUT LCD_E_B s

/-- The function `LCD_Write(di, val)`. -/
def LCD_Write (di val : Int) (s : State) : State :=
  let s := { s with calls := s.calls ++ [(di, val)] }
  let high_val := val >>> (4 : Nat)
  let low_val := Int.land val 0x0F
  let s := if di = 0 then clrP2OUT LCD_RS_B s else setP2OUT LCD_RS_B s
  let s := if Int.land high_val 0x01 ≠ 0 then setP2OUT LCD_D4_B s else clrP2OUT LCD_D4_B s
  let high_val := high_val >>> (1 : Nat)
  let s := if Int.land high_val 0x01 ≠ 0 then setP2OUT LCD_D5_B s else clrP2OUT LCD_D5_B s
  let high_val := high_val >>> (1 : Nat)
  let s := if Int.land high_val 0x01 ≠ 0 then setP2OUT LCD_D6_B s else clrP2OUT LCD_D6_B s
  let high_val := high_val >>> (1 : Nat)
  let s := if Int.land high_val 0x01 ≠ 0 then setP2OUT LCD_D7_B s else clrP2OUT LCD_D7_B s
  let s := LCD_Enable s
  let s := if Int.land low_val 0x01 ≠ 0 then setP2OUT LCD_D4_B s else clrP2OUT LCD_D4_B s
  let low_val := low_val >>> (1 : Nat)
  let s := if Int.land low_val 0x01 ≠ 0 then setP2OUT LCD_D5_B s else clrP2OUT LCD_D5_B s
  let low_val := low_val >>> (1 : Nat)
  let s := if Int.land low_val 0x01 ≠ 0 then setP2OUT LCD_D6_B s else clrP2OUT LCD_D6_B s
  let low_val := low_val >>> (1 : Nat)
  let s := if Int.land low_val 0x01 ≠ 0 then setP2OUT LCD_D7_B s else clrP2OUT LCD_D7_B s
  LCD_Enable s

/-- The function `LCD_Initialize`. -/
def LCD_Initialize (s : State) : State :=
  let s := setP2DIR LCD_D7_B s
  let s := setP2DIR LCD_D6_B s
  let s := setP2DIR LCD_D5_B s
  let s := setP2DIR LCD_D4_B s
  let s := setP2DIR LCD_E_B s
  let s := setP2DIR LCD_RS_B s
  let s := LCD_Write 0 0x2C s
  let s := LCD_Write 0 0x06 s
  let s := LCD_Write 0 0x0C s
  let s := LCD_Write 0 0x02 s
  LCD_Write 0 0x01 s

/-- The function `LCD_Clear`. -/
def LCD_Clear (s : State) : State := LCD_Write 0 0x01 s

/-- The values of `P2OUT`, in a sequence of successive values, right before
the Enable pin (bit 4) goes from high to low: what the LCD reads off the
Register Select and data pins at the end of each Enable pulse. -/
def fallingEdges : List Nat → List Nat
  | a :: b :: rest =>
    if a.testBit 4 && !b.testBit 4 then a :: fallingEdges (b :: rest)
    else fallingEdges (b :: rest)
  | _ => []

/-- The values `P2OUT` takes from state `s` to a later state `t`: its value in
`s` followed by its value after each store made since. -/
def valuesSince (s t : State) : List Nat := s.P2OUT :: t.stores.drop s.stores.length

/-- The value an `if(c) R|=B; else R&=~B;` leaves in the 8-bit register `R`. -/
def regPut (c : Bool) (r b : Nat) : Nat := if c then regSet r b else regClr r b

end LCD_Display

/-! ## Bit-level lemmas for the register statements -/

theorem testBit_regSet (r b i : Nat) :
    (regSet r b).testBit i = (decide (i < 8) && (r.testBit i || b.testBit i)) := by
  have h : (256 : Nat) = 2 ^ 8 := by norm_num
  rw [regSet, h, Nat.testBit_mod_two_pow, Nat.testBit_or]

theorem testBit_regClr (r b i : Nat) :
    (regClr r b).testBit i = (decide (i < 8) && (r.testBit i && !b.testBit i)) := by
  have h : (256 : Nat) = 2 ^ 8 := by norm_num
  have h16 : (0xFFFF : Nat) = 2 ^ 16 - 1 := by norm_num
  rw [regClr, h, Nat.testBit_mod_two_pow, Nat.testBit_and, Nat.testBit_xor, h16,
    Nat.testBit_two_pow_sub_one]
  by_cases hi : i < 8
  · have : i < 16 := by omega
    simp [hi, this]
  · simp [hi]

theorem testBit_BIT0 (i : Nat) : BIT0.testBit i = decide (i = 0) := by
  have h : BIT0 = 2 ^ 0 := by decide
  rw [h, Nat.testBit_two_pow]; simp [eq_comm]

theorem testBit_BIT1 (i : Nat) : BIT1.testBit i = decide (i = 1) := by
  have h : BIT1 = 2 ^ 1 := by decide
  rw [h, Nat.testBit_two_pow]; simp [eq_comm]

theorem testBit_BIT2 (i : Nat) : BIT2.testBit i = decide (i = 2) := by
  have h : BIT2 = 2 ^ 2 := by decide
  rw [h, Nat.testBit_two_pow]; simp [eq_comm]

theorem testBit_BIT3 (i : Nat) : BIT3.testBit i = decide (i = 3) := by
  have h : BIT3 = 2 ^ 3 := by decide
  rw [h, Nat.testBit_two_pow]; simp [eq_comm]

theorem testBit_BIT4 (i : Nat) : BIT4.testBit i = decide (i = 4) := by
  have h : BIT4 = 2 ^ 4 := by decide
  rw [h, Nat.testBit_two_pow]; simp [eq_comm]

theorem testBit_BIT5 (i : Nat) : BIT5.testBit i = decide (i = 5) := by
  have h : BIT5 = 2 ^ 5 := by decide
  rw [h, Nat.testBit_two_pow]; simp [eq_comm]

theorem testBit_BIT6 (i : Nat) : BIT6.testBit i = decide (i = 6) := by
  have h : BIT6 = 2 ^ 6 := by decide
  rw [h, Nat.testBit_two_pow]; simp [eq_comm]

theorem testBit_BIT7 (i : Nat) : BIT7.testBit i = decide (i = 7) := by
  have h : BIT7 = 2 ^ 7 := by decide
  rw [h, Nat.testBit_two_pow]; simp [eq_comm]

/-- Bit `i` of a C `int` is set exactly when masking with `2^i` leaves something. -/
theorem land_two_pow_ne_zero (val : Int) (i : Nat) :
    Int.land val ((2 ^ i : Nat) : Int) ≠ 0 ↔ val.testBit i = true := by
  cases val with
  | ofNat m =>
    show ((m &&& 2 ^ i : Nat) : Int) ≠ 0 ↔ m.testBit i = true
    rw [Nat.and_two_pow]
    cases h : m.testBit i <;> simp
  | negSucc m =>
    show ((Nat.ldiff (2 ^ i) m : Nat) : Int) ≠ 0 ↔ (!m.testBit i) = true
    constructor
    · intro h
      by_contra hc
      apply h
      have : Nat.ldiff (2 ^ i) m = 0 := by
        apply Nat.eq_of_testBit_eq
        intro k
        rw [Nat.testBit_ldiff, Nat.testBit_two_pow, Nat.zero_testBit]
        by_cases hk : i = k
        · subst hk; simp at hc; simp [hc]
        · simp [hk]
      simp [this]
    · intro h hz
      have hz' : Nat.ldiff (2 ^ i) m = 0 := by exact_mod_cast hz
      have := Nat.testBit_ldiff (2 ^ i) m i
      rw [hz', Nat.zero_testBit, Nat.testBit_two_pow] at this
      simp at this
      simp [this] at h

/-! ## Charlieplexed LEDs: lemmas -/

namespace Charlieplexed_LEDs

/-- The test `(val&(1<<iter))!=0` of `charlie` reads bit `iter` of `val`. -/
theorem lit_test_iff (val : Int) (i : Nat) :
    Int.land val (1 <<< (i : Int)) ≠ 0 ↔ val.testBit i = true := by
  rw [Int.one_shiftLeft]
  exact land_two_pow_ne_zero val i

/-- When the low six bits of `val` are all clear, so is each of them. -/
theorem testBit_of_land_63 (val : Int) (h : Int.land val 0x3F = 0) (i : Nat) (hi : i < 6) :
    val.testBit i = false := by
  have h1 := Int.testBit_land val 0x3F i
  rw [h] at h1
  have h2 : Int.testBit 0x3F i = true := by interval_cases i <;> decide
  have h3 : Int.testBit 0 i = false := by
    show Nat.testBit 0 i = false
    exact Nat.zero_testBit i
  rw [h2, h3] at h1
  simpa using h1.symm

/-- A slot whose bit is set rules out the all-off test of `charlie`. -/
theorem land_63_ne_zero (val : Int) (i : Nat) (hi : i < 6) (hb : val.testBit i = true) :
    Int.land val 0x3F ≠ 0 := fun h => by
  have := testBit_of_land_63 val h i hi
  simp [this] at hb

/-- A slot whose bit is set: `charlie` puts the pins in the slot's row of the table. -/
theorem charlie_lit (val : Int) (i : Nat) (hi : i < 6) (s : State)
    (hb : val.testBit i = true) :
    inSlot (charlie val i s) i := by
  have hz := land_63_ne_zero val i hi hb
  have hl := (lit_test_iff val i).2 hb
  interval_cases i <;>
    simp only [Nat.cast_ofNat, Nat.cast_zero, Nat.cast_one] at hl ⊢ <;>
    simp [-Nat.testBit_zero, charlie, hl, hz, inSlot, drives, pinOut, pinHigh, slotTable,
      testBit_regSet, testBit_regClr, CHARLIE_0_B, CHARLIE_1_B, CHARLIE_2_B,
      testBit_BIT0, testBit_BIT1, testBit_BIT2]

/-- A slot whose bit is clear while another LED is on: `charlie` does nothing. -/
theorem charlie_unlit (val : Int) (i : Nat) (s : State)
    (hb : val.testBit i = false) (hz : Int.land val 0x3F ≠ 0) :
    charlie val i s = s := by
  have hl : Int.land val (1 <<< (i : Int)) = 0 := by
    by_contra h
    rw [(lit_test_iff val i).1 h] at hb
    exact Bool.noConfusion hb
  simp [charlie, hl, hz]

/-- Every slot when no LED is to be on: `charlie` only clears the three
direction bits. -/
theorem charlie_all_off (val : Int) (i : Nat) (hi : i < 6) (s : State)
    (hz : Int.land val 0x3F = 0) :
    charlie val i s =
      { s with P2DIR := regClr (regClr (regClr s.P2DIR CHARLIE_0_B) CHARLIE_1_B) CHARLIE_2_B } := by
  have hl : Int.land val (1 <<< (i : Int)) = 0 := by
    by_contra h
    have hb := (lit_test_iff val i).1 h
    rw [testBit_of_land_63 val hz i hi] at hb
    exact Bool.noConfusion hb
  simp [charlie, hl, hz]

/-- The function `charlie` writes neither `charlie_val` nor `charlie_iter`. -/
theorem charlie_globals (val iter : Int) (s : State) :
    (charlie val iter s).charlie_val = s.charlie_val ∧
      (charlie val iter s).charlie_iter = s.charlie_iter := by
  unfold charlie
  split_ifs <;> (try split) <;> exact ⟨rfl, rfl⟩

/-- The cursor update of `TMR0` leaves the pins as `charlie` set them. -/
theorem TMR0_pins (s : State) :
    (TMR0 true s).P2DIR = (charlie s.charlie_val s.charlie_iter s).P2DIR ∧
      (TMR0 true s).P2OUT = (charlie s.charlie_val s.charlie_iter s).P2OUT := by
  simp only [TMR0, if_true]
  split_ifs <;> exact ⟨rfl, rfl⟩

/-- The cursor after a tick, and the pattern, which a tick does not write. -/
theorem TMR0_globals (s : State) :
    (TMR0 true s).charlie_iter = (if s.charlie_iter + 1 = 6 then 0 else s.charlie_iter + 1) ∧
      (TMR0 true s).charlie_val = s.charlie_val := by
  have hg := charlie_globals s.charlie_val s.charlie_iter s
  simp only [TMR0, if_true, hg.2]
  split_ifs <;> simp [hg.1]

/-- The cursor counts ticks modulo 6 and the pattern stays as the main loop left it. -/
theorem ticks_globals (s : State) (c : Nat) (hc : c < 6) (h : s.charlie_iter = c) (k : Nat) :
    (ticks k s).charlie_iter = (((c + k) % 6 : Nat) : Int) ∧
      (ticks k s).charlie_val = s.charlie_val := by
  induction k with
  | zero => simp [ticks, h, Nat.mod_eq_of_lt hc]
  | succ k ih =>
    have hg := TMR0_globals (ticks k s)
    refine ⟨?_, by rw [ticks, hg.2, ih.2]⟩
    rw [ticks, hg.1, ih.1]
    split_ifs <;> omega

/-- Whatever slot and pattern `charlie` is given, it keeps the pins safe. -/
theorem charlie_pinsSafe (val iter : Int) (s : State) (h : pinsSafe s) :
    pinsSafe (charlie val iter s) := by
  unfold charlie
  split_ifs <;> (try split) <;>
    first
      | exact h
      | simp [-Nat.testBit_zero, pinsSafe, allHiZ, drivenPair, pinOut, pinHigh,
          testBit_regSet, testBit_regClr, CHARLIE_0_B, CHARLIE_1_B, CHARLIE_2_B,
          testBit_BIT0, testBit_BIT1, testBit_BIT2]

/-- With safe pins at most one of the six LEDs conducts. -/
theorem conducts_le_one (s : State) (h : pinsSafe s) :
    (ledPairs.filter (conducts s)).length ≤ 1 := by
  simp only [pinsSafe, allHiZ, drivenPair, pinOut, pinHigh] at h
  simp only [ledPairs, conducts, pinOut, pinHigh, List.filter]
  generalize s.P2DIR.testBit 0 = d0 at *
  generalize s.P2DIR.testBit 1 = d1 at *
  generalize s.P2DIR.testBit 2 = d2 at *
  generalize s.P2OUT.testBit 0 = o0 at *
  generalize s.P2OUT.testBit 1 = o1 at *
  generalize s.P2OUT.testBit 2 = o2 at *
  revert h
  cases d0 <;> cases d1 <;> cases d2 <;> cases o0 <;> cases o1 <;> cases o2 <;> decide

/-- No slot's row of the table matches pins that are all inputs. -/
theorem not_inSlot_of_allHiZ (s : State) (h : allHiZ s) (i : Nat) : ¬ inSlot s i := by
  rintro ⟨d, hd, h1, h2, h3, -⟩
  have hi : i < 6 := by
    by_contra hn
    have : slotTable[i]? = none := by
      apply List.getElem?_eq_none
      simp [slotTable]; omega
    rw [this] at hd
    exact Option.noConfusion hd
  obtain ⟨a0, a1, a2⟩ := h
  interval_cases i <;> simp [slotTable] at hd <;> subst hd <;> simp_all

/-- The rows of the table are pairwise incompatible: the pins match at most one slot. -/
theorem inSlot_unique (s : State) (i j : Nat) (hi : inSlot s i) (hj : inSlot s j) : i = j := by
  obtain ⟨d, hd, h1, h2, h3, h4, h5⟩ := hi
  obtain ⟨e, he, g1, g2, g3, g4, g5⟩ := hj
  have hi6 : i < 6 := by
    by_contra hn
    have : slotTable[i]? = none := by
      apply List.getElem?_eq_none
      simp [slotTable]; omega
    rw [this] at hd
    exact Option.noConfusion hd
  have hj6 : j < 6 := by
    by_contra hn
    have : slotTable[j]? = none := by
      apply List.getElem?_eq_none
      simp [slotTable]; omega
    rw [this] at he
    exact Option.noConfusion he
  interval_cases i <;> interval_cases j <;> simp [slotTable] at hd he <;> subst hd <;>
    subst he <;> simp_all

/-- The pins after a tick match a slot exactly when the pins `charlie` left do. -/
theorem inSlot_TMR0 (s : State) (i : Nat) :
    inSlot (TMR0 true s) i ↔ inSlot (charlie s.charlie_val s.charlie_iter s) i := by
  have hp := TMR0_pins s
  simp only [inSlot, drives, pinOut, pinHigh, hp.1, hp.2]

/-- After `k` ticks of a cycle started with all pins as inputs, the pins show
the last slot before the cursor whose bit is set, if there is one. -/
theorem inSlot_ticks (s : State) (h0 : s.charlie_iter = 0) (hz : allHiZ s) (k : Nat)
    (hk : k ≤ 6) (i : Nat) :
    inSlot (ticks k s) i ↔
      (i < k ∧ s.charlie_val.testBit i = true ∧
        ∀ j, i < j → j < k → s.charlie_val.testBit j = false) := by
  induction k generalizing i with
  | zero =>
    simp only [ticks]
    constructor
    · intro h
      exact absurd h (not_inSlot_of_allHiZ s hz i)
    · rintro ⟨h, -⟩
      omega
  | succ k ih =>
    have hk6 : k < 6 := by omega
    have hg := ticks_globals s 0 (by norm_num) (by simpa using h0) k
    have hcur : (ticks k s).charlie_iter = (k : Int) := by
      rw [hg.1, Nat.zero_add, Nat.mod_eq_of_lt hk6]
    rw [ticks, inSlot_TMR0, hg.2, hcur]
    by_cases hb : s.charlie_val.testBit k = true
    · have hl := charlie_lit s.charlie_val k hk6 (ticks k s) hb
      constructor
      · intro h
        have hik := inSlot_unique _ i k h hl
        subst hik
        exact ⟨by omega, hb, fun j h1 h2 => by omega⟩
      · rintro ⟨h1, h2, h3⟩
        have hik : i = k := by
          by_contra hne
          have := h3 k (by omega) (by omega)
          rw [this] at hb
          exact Bool.noConfusion hb
        subst hik
        exact hl
    · have hb' : s.charlie_val.testBit k = false := by simpa using hb
      by_cases hzero : Int.land s.charlie_val 0x3F = 0
      · rw [charlie_all_off s.charlie_val k hk6 (ticks k s) hzero]
        constructor
        · intro h
          exfalso
          refine not_inSlot_of_allHiZ _ ?_ i h
          simp [-Nat.testBit_zero, allHiZ, pinOut, testBit_regClr, CHARLIE_0_B, CHARLIE_1_B,
            CHARLIE_2_B, testBit_BIT0, testBit_BIT1, testBit_BIT2]
        · rintro ⟨h1, h2, -⟩
          rw [testBit_of_land_63 s.charlie_val hzero i (by omega)] at h2
          exact Bool.noConfusion h2
      · rw [charlie_unlit s.charlie_val k (ticks k s) hb' hzero, ih (by omega) i]
        constructor
        · rintro ⟨h1, h2, h3⟩
          refine ⟨by omega, h2, fun j hj1 hj2 => ?_⟩
          by_cases hjk : j = k
          · subst hjk; exact hb'
          · exact h3 j hj1 (by omega)
        · rintro ⟨h1, h2, h3⟩
          have hik : i ≠ k := by
            rintro rfl
            rw [h2] at hb'
            exact Bool.noConfusion hb'
          exact ⟨by omega, h2, fun j hj1 hj2 => h3 j hj1 (by omega)⟩

end Charlieplexed_LEDs

/-! ## Seven-segment display: lemmas -/

namespace Seven_Segment_Display

/-- The test `disp&0x01` after `k` right shifts reads bit `k` of the code. -/
theorem land_shift_one (d : Int) (k : Nat) :
    decide (Int.land (d >>> k) 0x01 = 0) = !d.testBit k := by
  have h := land_two_pow_ne_zero (d >>> k) 0
  simp only [pow_zero, Nat.cast_one] at h
  have h2 : (d >>> k).testBit 0 = d.testBit k := by
    cases d with
    | ofNat m =>
      show (m >>> k).testBit 0 = m.testBit k
      rw [Nat.testBit_shiftRight]; simp
    | negSucc m =>
      show (!(m >>> k).testBit 0) = (!m.testBit k)
      rw [Nat.testBit_shiftRight]; simp
  rw [← h2]
  by_cases hz : Int.land (d >>> k) 1 = 0
  · have : ¬ (d >>> k).testBit 0 = true := fun hc => (h.2 hc) hz
    simp [hz, this]
  · have := h.1 hz
    simp [hz, this]

/-- A conditional `P2OUT |= b` touches no field but `P2OUT`. -/
theorem condSet_frame (c : Prop) [Decidable c] (b : Nat) (s : State) :
    (if c then setP2OUT b s else s).P1OUT = s.P1OUT ∧
      (if c then setP2OUT b s else s).P1DIR = s.P1DIR ∧
      (if c then setP2OUT b s else s).P2DIR = s.P2DIR ∧
      (if c then setP2OUT b s else s).ssd_val = s.ssd_val ∧
      (if c then setP2OUT b s else s).ssd_dot = s.ssd_dot ∧
      (if c then setP2OUT b s else s).ssd_iter = s.ssd_iter := by
  split_ifs <;> exact ⟨rfl, rfl, rfl, rfl, rfl, rfl⟩

/-- Bit `k` of `P2OUT` after a conditional `P2OUT |= b`. -/
theorem condSet_testBit (c : Prop) [Decidable c] (b : Nat) (s : State) (k : Nat) :
    (if c then setP2OUT b s else s).P2OUT.testBit k =
      ((s.P2OUT.testBit k && (!decide c || decide (k < 8))) ||
        (decide c && decide (k < 8) && b.testBit k)) := by
  split_ifs with h
  · simp only [setP2OUT, testBit_regSet, h, decide_True]
    cases s.P2OUT.testBit k <;> cases decide (k < 8) <;> cases b.testBit k <;> rfl
  · simp [h]

/-- The eight clearing statements leave `P2OUT` at zero whatever it held. -/
theorem segmentsOff_eq (s : State) : segmentsOff s = { s with P2OUT := 0 } := by
  have h : (segmentsOff s).P2OUT = 0 := by
    apply Nat.eq_of_testBit_eq
    intro i
    simp only [segmentsOff, clrP2OUT, testBit_regClr, SSD_A_B, SSD_B_B, SSD_C_B, SSD_D_B,
      SSD_E_B, SSD_F_B, SSD_G_B, SSD_DP_B, testBit_BIT0, testBit_BIT1, testBit_BIT2,
      testBit_BIT3, testBit_BIT4, testBit_BIT5, testBit_BIT6, testBit_BIT7, Nat.zero_testBit]
    by_cases hi : i < 8
    · interval_cases i <;> simp
    · simp [hi]
  rw [← h]
  rfl

theorem segmentsOn_frame (disp : Int) (s : State) :
    (segmentsOn disp s).P1OUT = s.P1OUT ∧ (segmentsOn disp s).P1DIR = s.P1DIR ∧
      (segmentsOn disp s).P2DIR = s.P2DIR ∧ (segmentsOn disp s).ssd_val = s.ssd_val ∧
      (segmentsOn disp s).ssd_dot = s.ssd_dot ∧ (segmentsOn disp s).ssd_iter = s.ssd_iter := by
  unfold segmentsOn
  simp only [condSet_frame, and_self]

/-- Segment pin `k` (A..G are pins 0..6) ends up at bit `7 - k` of the code. -/
theorem segmentsOn_P2OUT (disp : Int) (s : State) (h0 : s.P2OUT = 0) (k : Nat) :
    (segmentsOn disp s).P2OUT.testBit k = (decide (k < 7) && disp.testBit (7 - k)) := by
  unfold segmentsOn
  simp only [condSet_testBit, h0, Nat.zero_testBit, ← Int.shiftRight_add, Nat.reduceAdd,
    SSD_A_B, SSD_B_B, SSD_C_B, SSD_D_B, SSD_E_B, SSD_F_B, SSD_G_B, testBit_BIT0,
    testBit_BIT1, testBit_BIT2, testBit_BIT3, testBit_BIT4, testBit_BIT5, testBit_BIT6]
  by_cases hk : k < 7
  · interval_cases k <;> simp [land_shift_one]
  · have h1 : ¬ k = 0 := by omega
    have h2 : ¬ k = 1 := by omega
    have h3 : ¬ k = 2 := by omega
    have h4 : ¬ k = 3 := by omega
    have h5 : ¬ k = 4 := by omega
    have h6 : ¬ k = 5 := by omega
    have h7 : ¬ k = 6 := by omega
    simp [hk, h1, h2, h3, h4, h5, h6, h7]

theorem chooseDigit_frame (iter : Int) (s : State) :
    (chooseDigit iter s).P2OUT = s.P2OUT ∧ (chooseDigit iter s).P1DIR = s.P1DIR ∧
      (chooseDigit iter s).P2DIR = s.P2DIR ∧ (chooseDigit iter s).ssd_val = s.ssd_val ∧
      (chooseDigit iter s).ssd_dot = s.ssd_dot ∧ (chooseDigit iter s).ssd_iter = s.ssd_iter := by
  unfold chooseDigit
  split <;> exact ⟨rfl, rfl, rfl, rfl, rfl, rfl⟩

/-- Digit-enable pin `k` after the `switch`: line `i` among pins 0..3, and
pins 4..7 as they were. -/
theorem chooseDigit_P1OUT (i : Nat) (hi : i < 4) (s : State) (k : Nat) :
    (chooseDigit i s).P1OUT.testBit k =
      (decide (k < 8) && (decide (k = i) || (decide (4 ≤ k) && s.P1OUT.testBit k))) := by
  by_cases hk : k < 8
  · interval_cases i <;> interval_cases k <;>
      simp [-Nat.testBit_zero, chooseDigit, setP1OUT, clrP1OUT, testBit_regSet, testBit_regClr,
        SSD_0_B, SSD_1_B, SSD_2_B, SSD_3_B, testBit_BIT0, testBit_BIT1, testBit_BIT2,
        testBit_BIT3]
  · interval_cases i <;>
      simp [-Nat.testBit_zero, chooseDigit, setP1OUT, clrP1OUT, testBit_regSet, testBit_regClr,
        SSD_0_B, SSD_1_B, SSD_2_B, SSD_3_B, testBit_BIT0, testBit_BIT1, testBit_BIT2,
        testBit_BIT3, hk]

/-- Indexing a four-element array with `0..3` has a value. -/
theorem get?_isSome (a : Arr4) (i : Nat) (hi : i < 4) : ∃ v, a.get? (i : Int) = some v := by
  interval_cases i <;> simp [Arr4.get?]

/-- The whole effect of `update7Seg` on a slot in range. -/
theorem update7Seg_spec (i : Nat) (hi : i < 4) (s : State) (v d : Int)
    (hv : s.ssd_val.get? (i : Int) = some v) (hd : s.ssd_dot.get? (i : Int) = some d) :
    ∃ t, update7Seg i s = some t ∧
      (t.P1DIR = s.P1DIR ∧ t.P2DIR = s.P2DIR ∧ t.ssd_val = s.ssd_val ∧
        t.ssd_dot = s.ssd_dot ∧ t.ssd_iter = s.ssd_iter) ∧
      (∀ k, t.P1OUT.testBit k =
        (decide (k < 8) && (decide (k = i) || (decide (4 ≤ k) && s.P1OUT.testBit k)))) ∧
      (∀ k, t.P2OUT.testBit k =
        ((decide (k < 7) && (Seg7 v).testBit (7 - k)) || (decide (k = 7) && decide (d ≠ 0)))) := by
  have hoff := segmentsOff_eq s
  have hcf := chooseDigit_frame i (segmentsOff s)
  have hsf := segmentsOn_frame (Seg7 v) (chooseDigit i (segmentsOff s))
  have hdot : (segmentsOn (Seg7 v) (chooseDigit i (segmentsOff s))).ssd_dot = s.ssd_dot := by
    rw [hsf.2.2.2.2.1, hcf.2.2.2.2.1, hoff]
  have h0 : (chooseDigit i (segmentsOff s)).P2OUT = 0 := by rw [hcf.1, hoff]
  have hcd := condSet_frame (d ≠ 0) SSD_DP_B (segmentsOn (Seg7 v) (chooseDigit i (segmentsOff s)))
  refine ⟨if d ≠ 0 then setP2OUT SSD_DP_B (segmentsOn (Seg7 v) (chooseDigit i (segmentsOff s)))
    else segmentsOn (Seg7 v) (chooseDigit i (segmentsOff s)), ?_, ⟨?_, ?_, ?_, ?_, ?_⟩, ?_, ?_⟩
  · simp only [update7Seg, hv, Option.map_some', Option.bind_eq_bind, Option.some_bind, hdot, hd,
      Option.pure_def]
  · rw [hcd.2.1, hsf.2.1, hcf.2.1, hoff]
  · rw [hcd.2.2.1, hsf.2.2.1, hcf.2.2.1, hoff]
  · rw [hcd.2.2.2.1, hsf.2.2.2.1, hcf.2.2.2.1, hoff]
  · rw [hcd.2.2.2.2.1, hdot]
  · rw [hcd.2.2.2.2.2, hsf.2.2.2.2.2, hcf.2.2.2.2.2, hoff]
  · intro k
    rw [hcd.1, hsf.1, chooseDigit_P1OUT i hi, hoff]
  · intro k
    rw [condSet_testBit, segmentsOn_P2OUT _ _ h0, SSD_DP_B, testBit_BIT7]
    by_cases hk : k < 7
    · have h7 : ¬ k = 7 := by omega
      have h8 : k < 8 := by omega
      simp [hk, h7, h8]
    · by_cases h7 : k = 7
      · subst h7; simp
      · have : ¬ k < 8 := by omega
        simp [hk, h7, this]

/-- A tick at a cursor in range has a result: the cursor moves on modulo 4 and
the display state is not written. -/
theorem TMR0_cursor (s : State) (c : Nat) (hc : c < 4) (h : s.ssd_iter = (c : Int)) :
    ∃ t, TMR0 true s = some t ∧ t.ssd_iter = (((c + 1) % 4 : Nat) : Int) ∧
      t.ssd_val = s.ssd_val ∧ t.ssd_dot = s.ssd_dot := by
  obtain ⟨v, hv⟩ := get?_isSome s.ssd_val c hc
  obtain ⟨d, hd⟩ := get?_isSome s.ssd_dot c hc
  obtain ⟨u, hu, ⟨-, -, h3, h4, h5⟩, -, -⟩ := update7Seg_spec c hc s v d hv hd
  by_cases h4c : u.ssd_iter + 1 = 4
  · refine ⟨{ u with ssd_iter := 0 }, ?_, ?_, h3, h4⟩
    · simp [TMR0, h, hu, h4c]
    · show (0 : Int) = _
      rw [h5, h] at h4c
      omega
  · refine ⟨{ u with ssd_iter := u.ssd_iter + 1 }, ?_, ?_, h3, h4⟩
    · simp [TMR0, h, hu, h4c]
    · show u.ssd_iter + 1 = _
      rw [h5, h] at h4c ⊢
      omega

/-- From a cursor in range every tick has a result and the cursor counts ticks
modulo 4. -/
theorem ticks_cursor (s : State) (c : Nat) (hc : c < 4) (h : s.ssd_iter = (c : Int)) (k : Nat) :
    ∃ t, ticks k s = some t ∧ t.ssd_iter = (((c + k) % 4 : Nat) : Int) ∧
      t.ssd_val = s.ssd_val ∧ t.ssd_dot = s.ssd_dot := by
  induction k with
  | zero => exact ⟨s, rfl, by simp [h, Nat.mod_eq_of_lt hc], rfl, rfl⟩
  | succ k ih =>
    obtain ⟨t, ht, hcur, hval, hdot⟩ := ih
    obtain ⟨u, hu, hucur, huval, hudot⟩ :=
      TMR0_cursor t ((c + k) % 4) (Nat.mod_lt _ (by norm_num)) hcur
    refine ⟨u, by simp [ticks, ht, hu], ?_, by rw [huval, hval], by rw [hudot, hdot]⟩
    rw [hucur]
    congr 1
    omega

end Seven_Segment_Display

/-! ## A tick as a call of the slot function -/

namespace Charlieplexed_LEDs

/-- A tick at cursor `c` is `charlie` at slot `c` on the current pattern,
followed by the cursor update. -/
theorem charlie_tick_eq (s : State) (c : Nat) (hc : c < 6) (h : s.charlie_iter = (c : Int)) :
    TMR0 true s =
      { charlie s.charlie_val (c : Int) s with charlie_iter := (((c + 1) % 6 : Nat) : Int) } := by
  have e : (charlie s.charlie_val (c : Int) s).charlie_iter = (c : Int) := by
    rw [(charlie_globals _ _ _).2, h]
  simp only [TMR0, if_true, h, e]
  split_ifs with h6
  · have : (0 : Int) = (((c + 1) % 6 : Nat) : Int) := by omega
    rw [this]
  · have : (c : Int) + 1 = (((c + 1) % 6 : Nat) : Int) := by omega
    rw [this]

end Charlieplexed_LEDs

namespace Seven_Segment_Display

/-- A tick at a cursor `c` in range is `update7Seg` at slot `c`, followed by
the cursor update. -/
theorem update7Seg_tick_eq (s u : State) (c : Nat) (hc : c < 4) (h : s.ssd_iter = (c : Int))
    (hu : update7Seg (c : Int) s = some u) :
    TMR0 true s = some { u with ssd_iter := (((c + 1) % 4 : Nat) : Int) } := by
  obtain ⟨v, hv⟩ := get?_isSome s.ssd_val c hc
  obtain ⟨d, hd⟩ := get?_isSome s.ssd_dot c hc
  obtain ⟨w, hw, ⟨-, -, -, -, h5⟩, -, -⟩ := update7Seg_spec c hc s v d hv hd
  rw [hu] at hw
  cases hw
  have e : u.ssd_iter = (c : Int) := by rw [h5, h]
  simp only [TMR0, if_true, h, hu, Option.bind_eq_bind, Option.some_bind, Option.pure_def, e]
  split_ifs with h4
  · have : (0 : Int) = (((c + 1) % 4 : Nat) : Int) := by omega
    rw [this]
  · have : (c : Int) + 1 = (((c + 1) % 4 : Nat) : Int) := by omega
    rw [this]

/-- After `update7Seg` at a slot in range the four digit enables read `1 << slot`. -/
theorem update7Seg_enable (i : Nat) (hi : i < 4) (s u : State)
    (hu : update7Seg (i : Int) s = some u) : u.P1OUT &&& 0x0F = 1 <<< i := by
  obtain ⟨v, hv⟩ := get?_isSome s.ssd_val i hi
  obtain ⟨d, hd⟩ := get?_isSome s.ssd_dot i hi
  obtain ⟨w, hw, -, hP1, -⟩ := update7Seg_spec i hi s v d hv hd
  rw [hu] at hw
  cases hw
  apply Nat.eq_of_testBit_eq
  intro k
  have h15 : (0x0F : Nat) = 2 ^ 4 - 1 := by norm_num
  rw [Nat.testBit_and, hP1, h15, Nat.testBit_two_pow_sub_one, Nat.one_shiftLeft,
    Nat.testBit_two_pow]
  by_cases hk : k < 4
  · have h8 : k < 8 := by omega
    have h4 : ¬ 4 ≤ k := by omega
    simp [hk, h8, h4, eq_comm]
  · have hne : ¬ i = k := by omega
    simp [hk, hne]

end Seven_Segment_Display

/-! ## The glyph decoder and the round-robin cursor -/

/-- C1: `Seg7` returns the documented code on 0..9 and the blank mask for every
other integer. -/
theorem Seg7_table :
    Seven_Segment_Display.Seg7 0 = 0xFC ∧ Seven_Segment_Display.Seg7 1 = 0x60 ∧
      Seven_Segment_Display.Seg7 2 = 0xDA ∧ Seven_Segment_Display.Seg7 3 = 0xF2 ∧
      Seven_Segment_Display.Seg7 4 = 0x66 ∧ Seven_Segment_Display.Seg7 5 = 0xB6 ∧
      Seven_Segment_Display.Seg7 6 = 0xBE ∧ Seven_Segment_Display.Seg7 7 = 0xE0 ∧
      Seven_Segment_Display.Seg7 8 = 0xFE ∧ Seven_Segment_Display.Seg7 9 = 0xF6 ∧
      ∀ a : Int, a < 0 ∨ a > 9 → Seven_Segment_Display.Seg7 a = 0 := by
  refine ⟨rfl, rfl, rfl, rfl, rfl, rfl, rfl, rfl, rfl, rfl, fun a h => ?_⟩
  unfold Seven_Segment_Display.Seg7
  split <;> first | rfl | omega

/-- The blank case of the table at the input -3. -/
theorem Seg7_table_witness :
    ((-3 : Int) < 0 ∨ (-3 : Int) > 9) ∧ Seven_Segment_Display.Seg7 (-3) = 0 :=
  ⟨by decide, Seg7_table.2.2.2.2.2.2.2.2.2.2 (-3) (by decide)⟩

/-- C2: in both engines, from any display state and any cursor `c` in range,
tick number `k + 1` of `N` successive ticks hands slot `(c + k) mod N` to
`charlie` / `update7Seg` (the state after the tick is the function's result at
that slot with the cursor advanced), and the pins show it: a charlieplexed slot
whose bit is set leaves the pins in that slot's drive configuration, and a
seven-segment slot leaves its digit enable as the only one high with its
digit's code and decimal point on the segment pins.  Every slot in `0..N-1` is
rendered by exactly one of the `N` ticks and the cursor is `c` again after the
`N`-th tick (`N = 6` charlieplexed, `N = 4` seven-segment). -/
theorem round_robin_complete :
    (∀ (s : Charlieplexed_LEDs.State) (c : Nat), c < 6 → s.charlie_iter = (c : Int) →
      (∀ k : Nat, k < 6 →
        Charlieplexed_LEDs.renderedAt k s = (((c + k) % 6 : Nat) : Int) ∧
        Charlieplexed_LEDs.ticks (k + 1) s =
          { Charlieplexed_LEDs.charlie (Charlieplexed_LEDs.ticks k s).charlie_val
              (Charlieplexed_LEDs.renderedAt k s) (Charlieplexed_LEDs.ticks k s) with
            charlie_iter := (((c + k + 1) % 6 : Nat) : Int) } ∧
        (s.charlie_val.testBit ((c + k) % 6) = true →
          Charlieplexed_LEDs.inSlot (Charlieplexed_LEDs.ticks (k + 1) s) ((c + k) % 6))) ∧
      (∀ i : Nat, i < 6 → ∃! k : Nat, k < 6 ∧ Charlieplexed_LEDs.renderedAt k s = (i : Int)) ∧
      (Charlieplexed_LEDs.ticks 6 s).charlie_iter = (c : Int)) ∧
    (∀ (s : Seven_Segment_Display.State) (c : Nat), c < 4 → s.ssd_iter = (c : Int) →
      (∀ k : Nat, k < 4 →
        Seven_Segment_Display.renderedAt k s = some (((c + k) % 4 : Nat) : Int) ∧
        ∃ t u v d, Seven_Segment_Display.ticks k s = some t ∧
          Seven_Segment_Display.update7Seg (((c + k) % 4 : Nat) : Int) t = some u ∧
          Seven_Segment_Display.ticks (k + 1) s =
            some { u with ssd_iter := (((c + k + 1) % 4 : Nat) : Int) } ∧
          s.ssd_val.get? (((c + k) % 4 : Nat) : Int) = some v ∧
          s.ssd_dot.get? (((c + k) % 4 : Nat) : Int) = some d ∧
          u.P1OUT &&& 0x0F = 1 <<< ((c + k) % 4) ∧
          (∀ j, j < 7 → u.P2OUT.testBit j = (Seven_Segment_Display.Seg7 v).testBit (7 - j)) ∧
          (u.P2OUT.testBit 7 = true ↔ d ≠ 0)) ∧
      (∀ i : Nat, i < 4 → ∃! k : Nat, k < 4 ∧ Seven_Segment_Display.renderedAt k s = some (i : Int)) ∧
      ∃ t, Seven_Segment_Display.ticks 4 s = some t ∧ t.ssd_iter = (c : Int)) := by
  constructor
  · intro s c hc h
    have hr : ∀ k, Charlieplexed_LEDs.renderedAt k s = (((c + k) % 6 : Nat) : Int) :=
      fun k => (Charlieplexed_LEDs.ticks_globals s c hc h k).1
    refine ⟨fun k _ => ⟨hr k, ?_, fun hb => ?_⟩, fun i hi => ?_, ?_⟩
    · have hm : (c + k) % 6 < 6 := Nat.mod_lt _ (by norm_num)
      have e := Charlieplexed_LEDs.charlie_tick_eq (Charlieplexed_LEDs.ticks k s) ((c + k) % 6) hm (hr k)
      have e2 : ((c + k) % 6 + 1) % 6 = (c + k + 1) % 6 := by omega
      rw [e2] at e
      rw [hr, Charlieplexed_LEDs.ticks, e]
    · have hm : (c + k) % 6 < 6 := Nat.mod_lt _ (by norm_num)
      have hg := Charlieplexed_LEDs.ticks_globals s c hc h k
      rw [Charlieplexed_LEDs.ticks, Charlieplexed_LEDs.inSlot_TMR0, hg.1, hg.2]
      exact Charlieplexed_LEDs.charlie_lit s.charlie_val _ hm _ hb
    · refine ⟨(i + 6 - c) % 6, ⟨Nat.mod_lt _ (by norm_num), ?_⟩, ?_⟩
      · rw [hr]
        congr 1
        omega
      · rintro k ⟨hk, hki⟩
        rw [hr] at hki
        have : (c + k) % 6 = i := by exact_mod_cast hki
        omega
    · have := (Charlieplexed_LEDs.ticks_globals s c hc h 6).1
      rw [this]
      congr 1
      omega
  · intro s c hc h
    have hstep : ∀ k : Nat, ∃ t u v d, Seven_Segment_Display.ticks k s = some t ∧
        Seven_Segment_Display.update7Seg (((c + k) % 4 : Nat) : Int) t = some u ∧
        Seven_Segment_Display.TMR0 true t =
          some { u with ssd_iter := (((c + k + 1) % 4 : Nat) : Int) } ∧
        s.ssd_val.get? (((c + k) % 4 : Nat) : Int) = some v ∧
        s.ssd_dot.get? (((c + k) % 4 : Nat) : Int) = some d ∧
        t.ssd_iter = (((c + k) % 4 : Nat) : Int) ∧
        u.P1OUT &&& 0x0F = 1 <<< ((c + k) % 4) ∧
        (∀ j, j < 7 → u.P2OUT.testBit j = (Seven_Segment_Display.Seg7 v).testBit (7 - j)) ∧
        (u.P2OUT.testBit 7 = true ↔ d ≠ 0) := by
      intro k
      have hm : (c + k) % 4 < 4 := Nat.mod_lt _ (by norm_num)
      obtain ⟨t, ht, hcur, hval, hdot⟩ := Seven_Segment_Display.ticks_cursor s c hc h k
      obtain ⟨v, hv⟩ := Seven_Segment_Display.get?_isSome s.ssd_val ((c + k) % 4) hm
      obtain ⟨d, hd⟩ := Seven_Segment_Display.get?_isSome s.ssd_dot ((c + k) % 4) hm
      obtain ⟨u, hu, -, -, hP2⟩ := Seven_Segment_Display.update7Seg_spec ((c + k) % 4) hm t v d
        (by rw [hval]; exact hv) (by rw [hdot]; exact hd)
      have e := Seven_Segment_Display.update7Seg_tick_eq t u ((c + k) % 4) hm hcur hu
      have e2 : ((c + k) % 4 + 1) % 4 = (c + k + 1) % 4 := by omega
      rw [e2] at e
      refine ⟨t, u, v, d, ht, hu, e, hv, hd, hcur,
        Seven_Segment_Display.update7Seg_enable _ hm t u hu, fun j hj => ?_, ?_⟩
      · have h7 : ¬ j = 7 := by omega
        rw [hP2]; simp [hj, h7]
      · rw [hP2]; simp
    have hr : ∀ k, Seven_Segment_Display.renderedAt k s = some (((c + k) % 4 : Nat) : Int) := by
      intro k
      obtain ⟨t, u, v, d, ht, -, e, -, -, hcur, -⟩ := hstep k
      simp [Seven_Segment_Display.renderedAt, ht, e, hcur]
    refine ⟨fun k _ => ⟨hr k, ?_⟩, fun i hi => ?_, ?_⟩
    · obtain ⟨t, u, v, d, ht, hu, e, hv, hd, -, h1, h2, h3⟩ := hstep k
      refine ⟨t, u, v, d, ht, hu, ?_, hv, hd, h1, h2, h3⟩
      simp only [Seven_Segment_Display.ticks, ht, Option.some_bind, e]
    · refine ⟨(i + 4 - c) % 4, ⟨Nat.mod_lt _ (by norm_num), ?_⟩, ?_⟩
      · rw [hr]
        congr 2
        omega
      · rintro k ⟨hk, hki⟩
        rw [hr] at hki
        have : (c + k) % 4 = i := by exact_mod_cast Option.some.inj hki
        omega
    · obtain ⟨t, ht, hcur, -, -⟩ := Seven_Segment_Display.ticks_cursor s c hc h 4
      refine ⟨t, ht, ?_⟩
      rw [hcur]
      congr 1
      omega

/-- One full cycle of each engine from a cursor in the middle of its range:
the second tick from cursor 4 shows slot 5, whose bit is set in 0b101010, and
the cursors come back. -/
theorem round_robin_complete_witness :
    ((4 < 6 ∧ (⟨0, 0, 0x2A, 4⟩ : Charlieplexed_LEDs.State).charlie_iter = ((4 : Nat) : Int) ∧
          1 < 6 ∧ Int.testBit 0x2A ((4 + 1) % 6) = true) ∧
        Charlieplexed_LEDs.inSlot (Charlieplexed_LEDs.ticks (1 + 1) ⟨0, 0, 0x2A, 4⟩)
          ((4 + 1) % 6) ∧
        (Charlieplexed_LEDs.ticks 6 ⟨0, 0, 0x2A, 4⟩).charlie_iter = ((4 : Nat) : Int)) ∧
      ((3 < 4 ∧
          (⟨0, 0, 0, 0, ⟨1, 2, 3, 4⟩, ⟨0, 1, 0, 0⟩, 3⟩ :
            Seven_Segment_Display.State).ssd_iter = ((3 : Nat) : Int)) ∧
        ∃ t, Seven_Segment_Display.ticks 4 ⟨0, 0, 0, 0, ⟨1, 2, 3, 4⟩, ⟨0, 1, 0, 0⟩, 3⟩ = some t ∧
          t.ssd_iter = ((3 : Nat) : Int)) :=
  ⟨⟨⟨by decide, rfl, by decide, by decide⟩,
      ((round_robin_complete.1 ⟨0, 0, 0x2A, 4⟩ 4 (by decide) rfl).1 1 (by decide)).2.2
        (by decide),
      (round_robin_complete.1 ⟨0, 0, 0x2A, 4⟩ 4 (by decide) rfl).2.2⟩,
    ⟨⟨by decide, rfl⟩,
      (round_robin_complete.2 ⟨0, 0, 0, 0, ⟨1, 2, 3, 4⟩, ⟨0, 1, 0, 0⟩, 3⟩ 3 (by decide) rfl).2.2⟩⟩

/-! ## Claims about the charlieplexed engine -/

namespace Charlieplexed_LEDs

/-- C3: from a start with the three pins as inputs and cursor 0, after any
number of timer ticks with `charlie_val` rewritten arbitrarily in between, the
pins are all inputs or exactly two are outputs at opposite levels with the
third an input; hence at most one of the six LEDs conducts. -/
theorem at_most_one_led (s : State) (h : Reachable s) :
    pinsSafe s ∧ (ledPairs.filter (conducts s)).length ≤ 1 := by
  have hs : pinsSafe s := by
    induction h with
    | start s hz _ => exact Or.inl hz
    | write s v _ ih => exact ih
    | tick s _ ih =>
      have hp := TMR0_pins s
      have hc := charlie_pinsSafe s.charlie_val s.charlie_iter s ih
      simp only [pinsSafe, allHiZ, drivenPair, pinOut, pinHigh, hp.1, hp.2] at hc ⊢
      exact hc
  exact ⟨hs, conducts_le_one s hs⟩

/-- The state after the first tick from reset with the initial pattern is reachable and safe. -/
theorem at_most_one_led_witness :
    Reachable (TMR0 true ⟨0, 0, 0x01, 0⟩) ∧ pinsSafe (TMR0 true ⟨0, 0, 0x01, 0⟩) ∧
      (ledPairs.filter (conducts (TMR0 true ⟨0, 0, 0x01, 0⟩))).length ≤ 1 :=
  ⟨.tick _ (.start _ (by decide) rfl),
    at_most_one_led _ (.tick _ (.start _ (by decide) rfl))⟩

/-- C4 as stated fails: with `val = 0b000010` and the pins as slot 1 left them
(`P2DIR = 0x06`, `P2OUT = 0x04`, the state one full cycle from reset reaches),
`charlie(val, 0)` finds bit 0 clear and leaves pins 1 and 2 driven. -/
theorem off_slot_still_driven :
    ticks 6 ⟨0, 0, 0x02, 0⟩ = ⟨0x06, 0x04, 0x02, 0⟩ ∧
      ¬ ∀ (val : Int) (i : Nat) (s : State), i < 6 → val.testBit i = false →
        allHiZ (charlie val i s) := by
  refine ⟨by decide, fun h => ?_⟩
  have h1 := h 0x02 0 ⟨0x06, 0x04, 0x02, 0⟩ (by decide) (by decide)
  revert h1
  decide

/-- C4, amended: when bit `iter` of `val` is clear, `charlie(val, iter)` puts
all three pins in high impedance if `(val & 0x3F) == 0`, and otherwise leaves
`P2DIR` and `P2OUT` exactly as they were. -/
theorem off_slot_not_asserted (val : Int) (i : Nat) (s : State) (hi : i < 6)
    (hb : val.testBit i = false) :
    (Int.land val 0x3F = 0 → allHiZ (charlie val i s)) ∧
      (Int.land val 0x3F ≠ 0 → charlie val i s = s) := by
  refine ⟨fun hz => ?_, fun hz => charlie_unlit val i s hb hz⟩
  rw [charlie_all_off val i hi s hz]
  simp [-Nat.testBit_zero, allHiZ, pinOut, testBit_regClr, CHARLIE_0_B, CHARLIE_1_B,
    CHARLIE_2_B, testBit_BIT0, testBit_BIT1, testBit_BIT2]

/-- An unlit slot while other LEDs are on: the registers stay as slot 1 left them. -/
theorem off_slot_not_asserted_witness :
    (3 < 6 ∧ Int.testBit 0x12 3 = false) ∧
      charlie 0x12 ((3 : Nat) : Int) ⟨0x06, 0x04, 0x12, 3⟩ = ⟨0x06, 0x04, 0x12, 3⟩ :=
  ⟨by decide, (off_slot_not_asserted 0x12 3 ⟨0x06, 0x04, 0x12, 3⟩ (by decide) (by decide)).2
    (by decide)⟩

/-- C5: when `(charlie_val & 0x3F) == 0`, a tick at any cursor position 0..5 and
from any register contents leaves direction bits 0, 1 and 2 of `P2DIR` clear and
advances the cursor to `(iter + 1) mod 6`. -/
theorem all_off_tick (s : State) (i : Nat) (hi : i < 6) (hc : s.charlie_iter = (i : Int))
    (hz : Int.land s.charlie_val 0x3F = 0) :
    ((TMR0 true s).P2DIR.testBit 0 = false ∧ (TMR0 true s).P2DIR.testBit 1 = false ∧
        (TMR0 true s).P2DIR.testBit 2 = false) ∧
      (TMR0 true s).charlie_iter = (((i + 1) % 6 : Nat) : Int) := by
  have hp := TMR0_pins s
  have hg := TMR0_globals s
  constructor
  · rw [hp.1, hc, charlie_all_off s.charlie_val i hi s hz]
    simp [-Nat.testBit_zero, testBit_regClr, CHARLIE_0_B, CHARLIE_1_B, CHARLIE_2_B,
      testBit_BIT0, testBit_BIT1, testBit_BIT2]
  · rw [hg.1, hc]
    split_ifs <;> omega

/-- A tick at the last cursor position with no LED selected and all pins driven before. -/
theorem all_off_tick_witness :
    (5 < 6 ∧ Int.land 0x40 0x3F = 0) ∧
      ((TMR0 true ⟨0x07, 0x05, 0x40, 5⟩).P2DIR.testBit 0 = false ∧
        (TMR0 true ⟨0x07, 0x05, 0x40, 5⟩).P2DIR.testBit 1 = false ∧
        (TMR0 true ⟨0x07, 0x05, 0x40, 5⟩).P2DIR.testBit 2 = false) ∧
      (TMR0 true ⟨0x07, 0x05, 0x40, 5⟩).charlie_iter = (((5 + 1) % 6 : Nat) : Int) :=
  ⟨by decide, all_off_tick ⟨0x07, 0x05, 0x40, 5⟩ 5 (by decide) rfl (by decide)⟩

/-- C6: for a slot `iter` in 0..5 whose bit of `val` is set, and any prior
register contents, `charlie(val, iter)` leaves the pins as row `iter` of the
six-entry table says: the row's high and low pins are outputs, high and low
respectively, and its third pin is an input. -/
theorem charlie_agrees_with_table (val : Int) (i : Nat) (hi : i < 6) (s : State)
    (hb : val.testBit i = true) :
    ∃ d, slotTable[i]? = some d ∧
      pinOut (charlie val i s) d.hi = true ∧ pinOut (charlie val i s) d.lo = true ∧
      pinOut (charlie val i s) d.flt = false ∧
      pinHigh (charlie val i s) d.hi = true ∧ pinHigh (charlie val i s) d.lo = false :=
  charlie_lit val i hi s hb

/-- Slot 4 lit from registers that were all ones. -/
theorem charlie_agrees_with_table_witness :
    (4 < 6 ∧ Int.testBit 0x30 4 = true) ∧
      ∃ d, slotTable[4]? = some d ∧
        pinOut (charlie 0x30 ((4 : Nat) : Int) ⟨0xFF, 0xFF, 0x30, 4⟩) d.hi = true ∧
        pinOut (charlie 0x30 ((4 : Nat) : Int) ⟨0xFF, 0xFF, 0x30, 4⟩) d.lo = true ∧
        pinOut (charlie 0x30 ((4 : Nat) : Int) ⟨0xFF, 0xFF, 0x30, 4⟩) d.flt = false ∧
        pinHigh (charlie 0x30 ((4 : Nat) : Int) ⟨0xFF, 0xFF, 0x30, 4⟩) d.hi = true ∧
        pinHigh (charlie 0x30 ((4 : Nat) : Int) ⟨0xFF, 0xFF, 0x30, 4⟩) d.lo = false :=
  ⟨by decide, charlie_agrees_with_table 0x30 4 (by decide) ⟨0xFF, 0xFF, 0x30, 4⟩ (by decide)⟩

/-- C7: with `charlie_val` held at `val`, from cursor 0 and all three pins as
inputs, the slots whose drive configuration the pins show after some tick of
one 6-tick cycle are exactly the slots in 0..5 whose bit of `val` is set; with
`val = 0b000001` the pins show slot 0 and nothing else after every tick, and
with `val = 0b111111` they show slot `k - 1` after the `k`-th tick. -/
theorem full_cycle_scenario (val : Int) (s : State) (h0 : s.charlie_iter = 0)
    (hv : s.charlie_val = val) (hz : allHiZ s) :
    (∀ i, (∃ k, 1 ≤ k ∧ k ≤ 6 ∧ inSlot (ticks k s) i) ↔ (i < 6 ∧ val.testBit i = true)) ∧
      (val = 0b000001 → ∀ k, 1 ≤ k → k ≤ 6 → ∀ i, inSlot (ticks k s) i ↔ i = 0) ∧
      (val = 0b111111 → ∀ k, 1 ≤ k → k ≤ 6 → ∀ i, inSlot (ticks k s) i ↔ i + 1 = k) := by
  subst hv
  refine ⟨fun i => ⟨?_, ?_⟩, fun hval k hk1 hk6 i => ?_, fun hval k hk1 hk6 i => ?_⟩
  · rintro ⟨k, -, hk6, hin⟩
    have := (inSlot_ticks s h0 hz k hk6 i).1 hin
    exact ⟨by omega, this.2.1⟩
  · rintro ⟨hi, hb⟩
    exact ⟨i + 1, by omega, by omega,
      (inSlot_ticks s h0 hz (i + 1) (by omega) i).2 ⟨by omega, hb, fun j h1 h2 => by omega⟩⟩
  · rw [inSlot_ticks s h0 hz k hk6 i, hval]
    constructor
    · rintro ⟨h1, h2, -⟩
      have hi : i < 6 := by omega
      interval_cases i <;> first | rfl | exact absurd h2 (by decide)
    · rintro rfl
      refine ⟨by omega, by decide, fun j h1 h2 => ?_⟩
      have hj : j < 6 := by omega
      interval_cases j <;> first | omega | decide
  · rw [inSlot_ticks s h0 hz k hk6 i, hval]
    constructor
    · rintro ⟨h1, -, h3⟩
      by_contra hne
      have hlt : i + 1 < k := by omega
      have := h3 (i + 1) (by omega) hlt
      have hj : i + 1 < 6 := by omega
      revert this
      generalize i + 1 = j at hj
      interval_cases j <;> decide
    · intro h
      refine ⟨by omega, ?_, fun j h1 h2 => by omega⟩
      have hi : i < 6 := by omega
      interval_cases i <;> decide

/-- The pattern 0b000101 over one cycle from reset. -/
theorem full_cycle_scenario_witness :
    ((⟨0, 0x04, 0b000101, 0⟩ : State).charlie_iter = 0 ∧ allHiZ ⟨0, 0x04, 0b000101, 0⟩) ∧
      (∀ i, (∃ k, 1 ≤ k ∧ k ≤ 6 ∧ inSlot (ticks k ⟨0, 0x04, 0b000101, 0⟩) i) ↔
        (i < 6 ∧ Int.testBit 0b000101 i = true)) :=
  ⟨by decide, (full_cycle_scenario 0b000101 ⟨0, 0x04, 0b000101, 0⟩ rfl rfl (by decide)).1⟩

end Charlieplexed_LEDs

/-! ## Claims about the seven-segment engine -/

namespace Seven_Segment_Display

/-- C8: for a slot `iter` in 0..3, after `update7Seg(iter)` segment pin `k`
(bits 0..6 of `P2OUT`, A..G) equals bit `7 - k` of `Seg7(ssd_val[iter])`, the
decimal-point pin (bit 7) is high exactly when `ssd_dot[iter] != 0`, and
`P2OUT` is the same from any state with the same `ssd_val[iter]` and
`ssd_dot[iter]`, whatever `P2OUT` held before and whatever the other slots
hold. -/
theorem update7Seg_segments (i : Nat) (hi : i < 4) (s : State) :
    ∃ v d t, s.ssd_val.get? (i : Int) = some v ∧ s.ssd_dot.get? (i : Int) = some d ∧
      update7Seg i s = some t ∧
      (∀ k, k < 7 → t.P2OUT.testBit k = (Seg7 v).testBit (7 - k)) ∧
      (t.P2OUT.testBit 7 = true ↔ d ≠ 0) ∧
      ∀ s2 : State, s2.ssd_val.get? (i : Int) = some v → s2.ssd_dot.get? (i : Int) = some d →
        ∃ t2, update7Seg i s2 = some t2 ∧ t2.P2OUT = t.P2OUT := by
  obtain ⟨v, hv⟩ := get?_isSome s.ssd_val i hi
  obtain ⟨d, hd⟩ := get?_isSome s.ssd_dot i hi
  obtain ⟨t, ht, -, -, hP2⟩ := update7Seg_spec i hi s v d hv hd
  refine ⟨v, d, t, hv, hd, ht, fun k hk => ?_, ?_, fun s2 hv2 hd2 => ?_⟩
  · have h7 : ¬ k = 7 := by omega
    rw [hP2]; simp [hk, h7]
  · rw [hP2]; simp
  · obtain ⟨t2, ht2, -, -, hP2'⟩ := update7Seg_spec i hi s2 v d hv2 hd2
    refine ⟨t2, ht2, Nat.eq_of_testBit_eq fun k => ?_⟩
    rw [hP2, hP2']

/-- Digit 2 of a display showing 4321 with its decimal point on. -/
theorem update7Seg_segments_witness :
    2 < 4 ∧
      ∃ v d t, (⟨0, 0x35, 0, 0xA7, ⟨1, 2, 3, 4⟩, ⟨0, 0, 1, 0⟩, 2⟩ : State).ssd_val.get?
            ((2 : Nat) : Int) = some v ∧
        (⟨0, 0x35, 0, 0xA7, ⟨1, 2, 3, 4⟩, ⟨0, 0, 1, 0⟩, 2⟩ : State).ssd_dot.get?
            ((2 : Nat) : Int) = some d ∧
        update7Seg ((2 : Nat) : Int) ⟨0, 0x35, 0, 0xA7, ⟨1, 2, 3, 4⟩, ⟨0, 0, 1, 0⟩, 2⟩ = some t ∧
        (∀ k, k < 7 → t.P2OUT.testBit k = (Seg7 v).testBit (7 - k)) ∧
        (t.P2OUT.testBit 7 = true ↔ d ≠ 0) ∧
        ∀ s2 : State, s2.ssd_val.get? ((2 : Nat) : Int) = some v →
          s2.ssd_dot.get? ((2 : Nat) : Int) = some d →
          ∃ t2, update7Seg ((2 : Nat) : Int) s2 = some t2 ∧ t2.P2OUT = t.P2OUT :=
  ⟨by decide,
    update7Seg_segments 2 (by decide) ⟨0, 0x35, 0, 0xA7, ⟨1, 2, 3, 4⟩, ⟨0, 0, 1, 0⟩, 2⟩⟩

/-- C9: for a slot `iter` in 0..3 and any prior register contents, after
`update7Seg(iter)` exactly one of the four digit-enable lines is high, line
`iter`: `(P1OUT & 0x0F) == (1 << iter)`. -/
theorem single_active_digit (i : Nat) (hi : i < 4) (s : State) :
    ∃ t, update7Seg i s = some t ∧ t.P1OUT &&& 0x0F = 1 <<< i ∧
      ∀ k, k < 4 → (t.P1OUT.testBit k = true ↔ k = i) := by
  obtain ⟨v, hv⟩ := get?_isSome s.ssd_val i hi
  obtain ⟨d, hd⟩ := get?_isSome s.ssd_dot i hi
  obtain ⟨t, ht, -, hP1, -⟩ := update7Seg_spec i hi s v d hv hd
  refine ⟨t, ht, Nat.eq_of_testBit_eq fun k => ?_, fun k hk => ?_⟩
  · have h15 : (0x0F : Nat) = 2 ^ 4 - 1 := by norm_num
    rw [Nat.testBit_and, hP1, h15, Nat.testBit_two_pow_sub_one, Nat.one_shiftLeft,
      Nat.testBit_two_pow]
    by_cases hk : k < 4
    · have h8 : k < 8 := by omega
      have h4 : ¬ 4 ≤ k := by omega
      simp [hk, h8, h4, eq_comm]
    · have hne : ¬ i = k := by omega
      simp [hk, hne]
  · have h8 : k < 8 := by omega
    have h4 : ¬ 4 ≤ k := by omega
    rw [hP1]; simp [h8, h4]

/-- Digit 3 selected from registers holding other bits. -/
theorem single_active_digit_witness :
    3 < 4 ∧
      ∃ t, update7Seg ((3 : Nat) : Int) ⟨0, 0xF7, 0, 0x11, ⟨1, 2, 3, 4⟩, ⟨0, 0, 1, 0⟩, 3⟩ = some t ∧
        t.P1OUT &&& 0x0F = 1 <<< 3 ∧ ∀ k, k < 4 → (t.P1OUT.testBit k = true ↔ k = 3) :=
  ⟨by decide,
    single_active_digit 3 (by decide) ⟨0, 0xF7, 0, 0x11, ⟨1, 2, 3, 4⟩, ⟨0, 0, 1, 0⟩, 3⟩⟩

/-- C10: when the four elements of `ssd_val` are decimal digits showing `n`
(least significant digit first), one iteration of the main loop leaves four
decimal digits showing `(n + 1) mod 10000`; `{9,9,9,0}` becomes `{0,0,0,1}` and
`{9,9,9,9}` becomes `{0,0,0,0}`. -/
theorem counter_step (s : State) (h : digits s.ssd_val) :
    digits (mainLoopBody s).ssd_val ∧
      value (mainLoopBody s).ssd_val = (value s.ssd_val + 1) % 10000 ∧
      counterStep ⟨9, 9, 9, 0⟩ = ⟨0, 0, 0, 1⟩ ∧ counterStep ⟨9, 9, 9, 9⟩ = ⟨0, 0, 0, 0⟩ := by
  obtain ⟨⟨a0, a1⟩, ⟨b0, b1⟩, ⟨c0, c1⟩, ⟨d0, d1⟩⟩ := h
  refine ⟨?_, ?_, by decide, by decide⟩
  · simp only [mainLoopBody, counterStep, digits]
    split_ifs <;> simp_all <;> omega
  · simp only [mainLoopBody, counterStep, value]
    split_ifs <;> simp_all <;> omega

/-- The step from 7299 to 7300. -/
theorem counter_step_witness :
    digits (⟨0, 0, 0, 0, ⟨9, 9, 2, 7⟩, ⟨0, 0, 0, 0⟩, 1⟩ : State).ssd_val ∧
      value (mainLoopBody ⟨0, 0, 0, 0, ⟨9, 9, 2, 7⟩, ⟨0, 0, 0, 0⟩, 1⟩).ssd_val =
        (value (⟨0, 0, 0, 0, ⟨9, 9, 2, 7⟩, ⟨0, 0, 0, 0⟩, 1⟩ : State).ssd_val + 1) % 10000 :=
  ⟨by decide, (counter_step ⟨0, 0, 0, 0, ⟨9, 9, 2, 7⟩, ⟨0, 0, 0, 0⟩, 1⟩ (by decide)).2.1⟩

end Seven_Segment_Display

/-! ## Cycles of the charlieplexed engine -/

namespace Charlieplexed_LEDs

/-- Ticks compose. -/
theorem ticks_add (a b : Nat) (s : State) : ticks (a + b) s = ticks b (ticks a s) := by
  induction b with
  | zero => rfl
  | succ b ih => rw [← Nat.add_assoc, ticks, ticks, ih]

/-- Two states have the same pin state when their three direction bits and
three output bits agree. -/
theorem pins_eq_iff (s t : State) :
    pins s = pins t ↔
      ∀ j, j < 3 → (s.P2DIR.testBit j = t.P2DIR.testBit j ∧
        s.P2OUT.testBit j = t.P2OUT.testBit j) := by
  have h8 : (8 : Nat) = 2 ^ 3 := by norm_num
  constructor
  · intro h j hj
    have h1 : s.P2DIR % 8 = t.P2DIR % 8 := congrArg Prod.fst h
    have h2 : s.P2OUT % 8 = t.P2OUT % 8 := congrArg Prod.snd h
    have e1 := congrArg (fun x => Nat.testBit x j) h1
    have e2 := congrArg (fun x => Nat.testBit x j) h2
    simp only [h8, Nat.testBit_mod_two_pow, hj, decide_True, Bool.true_and] at e1 e2
    exact ⟨e1, e2⟩
  · intro h
    have h1 : s.P2DIR % 8 = t.P2DIR % 8 := by
      apply Nat.eq_of_testBit_eq
      intro j
      rw [h8, Nat.testBit_mod_two_pow, Nat.testBit_mod_two_pow]
      by_cases hj : j < 3
      · simp [hj, (h j hj).1]
      · simp [hj]
    have h2 : s.P2OUT % 8 = t.P2OUT % 8 := by
      apply Nat.eq_of_testBit_eq
      intro j
      rw [h8, Nat.testBit_mod_two_pow, Nat.testBit_mod_two_pow]
      by_cases hj : j < 3
      · simp [hj, (h j hj).2]
      · simp [hj]
    simp only [pins, h1, h2]

/-- On each of the six pin bits a call of `charlie` either keeps the bit or
writes a value fixed by `val` and the slot, whatever the registers held. -/
theorem charlie_bit_action (val : Int) (i : Nat) (hi : i < 6) (j : Nat) (hj : j < 3) :
    ((∀ s, (charlie val i s).P2DIR.testBit j = s.P2DIR.testBit j) ∨
        ∃ c, ∀ s, (charlie val i s).P2DIR.testBit j = c) ∧
      ((∀ s, (charlie val i s).P2OUT.testBit j = s.P2OUT.testBit j) ∨
        ∃ c, ∀ s, (charlie val i s).P2OUT.testBit j = c) := by
  by_cases hz : Int.land val 0x3F = 0
  · refine ⟨Or.inr ⟨false, fun s => ?_⟩, Or.inl fun s => ?_⟩
    · rw [charlie_all_off val i hi s hz]
      interval_cases j <;>
        simp [-Nat.testBit_zero, testBit_regClr, CHARLIE_0_B, CHARLIE_1_B, CHARLIE_2_B,
          testBit_BIT0, testBit_BIT1, testBit_BIT2]
    · rw [charlie_all_off val i hi s hz]
  · by_cases hb : val.testBit i = true
    · have hl := (lit_test_iff val i).2 hb
      interval_cases i <;> interval_cases j <;>
        simp only [Nat.cast_ofNat, Nat.cast_zero, Nat.cast_one] at hl ⊢ <;>
        simp [-Nat.testBit_zero, charlie, hl, hz, testBit_regSet, testBit_regClr, CHARLIE_0_B,
          CHARLIE_1_B, CHARLIE_2_B, testBit_BIT0, testBit_BIT1, testBit_BIT2]
    · have hb' : val.testBit i = false := by simpa using hb
      exact ⟨Or.inl fun s => by rw [charlie_unlit val i s hb' hz],
        Or.inl fun s => by rw [charlie_unlit val i s hb' hz]⟩


/-- The same for a whole run of ticks from a given cursor under a given pattern. -/
theorem ticks_bit_action (val : Int) (c : Nat) (hc : c < 6) (j : Nat) (hj : j < 3) (k : Nat) :
    ((∀ s, s.charlie_val = val → s.charlie_iter = (c : Int) →
          (ticks k s).P2DIR.testBit j = s.P2DIR.testBit j) ∨
        ∃ b, ∀ s, s.charlie_val = val → s.charlie_iter = (c : Int) →
          (ticks k s).P2DIR.testBit j = b) ∧
      ((∀ s, s.charlie_val = val → s.charlie_iter = (c : Int) →
          (ticks k s).P2OUT.testBit j = s.P2OUT.testBit j) ∨
        ∃ b, ∀ s, s.charlie_val = val → s.charlie_iter = (c : Int) →
          (ticks k s).P2OUT.testBit j = b) := by
  induction k with
  | zero => exact ⟨Or.inl fun s _ _ => rfl, Or.inl fun s _ _ => rfl⟩
  | succ k ih =>
    have hm : (c + k) % 6 < 6 := Nat.mod_lt _ (by norm_num)
    obtain ⟨aD, aO⟩ := charlie_bit_action val ((c + k) % 6) hm j hj
    have step : ∀ s, s.charlie_val = val → s.charlie_iter = (c : Int) →
        (ticks (k + 1) s).P2DIR = (charlie val (((c + k) % 6 : Nat) : Int) (ticks k s)).P2DIR ∧
        (ticks (k + 1) s).P2OUT = (charlie val (((c + k) % 6 : Nat) : Int) (ticks k s)).P2OUT := by
      intro s hv hcur
      have hg := ticks_globals s c hc hcur k
      have hp := TMR0_pins (ticks k s)
      rw [hg.1, hg.2, hv] at hp
      exact hp
    constructor
    · rcases aD with aD | ⟨b, aD⟩
      · rcases ih.1 with h | ⟨b, h⟩
        · exact Or.inl fun s hv hcur => by rw [(step s hv hcur).1, aD, h s hv hcur]
        · exact Or.inr ⟨b, fun s hv hcur => by rw [(step s hv hcur).1, aD, h s hv hcur]⟩
      · exact Or.inr ⟨b, fun s hv hcur => by rw [(step s hv hcur).1, aD]⟩
    · rcases aO with aO | ⟨b, aO⟩
      · rcases ih.2 with h | ⟨b, h⟩
        · exact Or.inl fun s hv hcur => by rw [(step s hv hcur).2, aO, h s hv hcur]
        · exact Or.inr ⟨b, fun s hv hcur => by rw [(step s hv hcur).2, aO, h s hv hcur]⟩
      · exact Or.inr ⟨b, fun s hv hcur => by rw [(step s hv hcur).2, aO]⟩

/-- A second full cycle leaves the pins where the first full cycle left them. -/
theorem pins_after_two_cycles (s : State) (h0 : s.charlie_iter = 0) :
    pins (ticks 12 s) = pins (ticks 6 s) := by
  have hg := ticks_globals s 0 (by norm_num) (by simpa using h0) 6
  have hcur : (ticks 6 s).charlie_iter = ((0 : Nat) : Int) := by rw [hg.1]
  have h12 : ticks 12 s = ticks 6 (ticks 6 s) := ticks_add 6 6 s
  rw [h12, pins_eq_iff]
  intro j hj
  obtain ⟨aD, aO⟩ := ticks_bit_action s.charlie_val 0 (by norm_num) j hj 6
  constructor
  · rcases aD with h | ⟨b, h⟩
    · exact h _ hg.2 hcur
    · rw [h _ hg.2 hcur, h s rfl (by simpa using h0)]
  · rcases aO with h | ⟨b, h⟩
    · exact h _ hg.2 hcur
    · rw [h _ hg.2 hcur, h s rfl (by simpa using h0)]

/-- A tick maps states with equal pins, cursor and pattern to states with equal pins. -/
theorem TMR0_pins_congr (s t : State) (c : Nat) (hc : c < 6) (hs : s.charlie_iter = (c : Int))
    (ht : t.charlie_iter = (c : Int)) (hv : t.charlie_val = s.charlie_val)
    (hp : pins s = pins t) : pins (TMR0 true s) = pins (TMR0 true t) := by
  rw [pins_eq_iff] at hp ⊢
  intro j hj
  obtain ⟨aD, aO⟩ := charlie_bit_action s.charlie_val c hc j hj
  have ps := TMR0_pins s
  have pt := TMR0_pins t
  rw [hs] at ps
  rw [ht, hv] at pt
  rw [ps.1, ps.2, pt.1, pt.2]
  constructor
  · rcases aD with h | ⟨b, h⟩
    · rw [h, h]; exact (hp j hj).1
    · rw [h, h]
  · rcases aO with h | ⟨b, h⟩
    · rw [h, h]; exact (hp j hj).2
    · rw [h, h]

/-- From the end of the first cycle on, the pin state repeats every six ticks. -/
theorem pins_periodic (s : State) (h0 : s.charlie_iter = 0) (m : Nat) :
    pins (ticks (6 + m + 6) s) = pins (ticks (6 + m) s) := by
  induction m with
  | zero => exact pins_after_two_cycles s h0
  | succ m ih =>
    have g1 := ticks_globals s 0 (by norm_num) (by simpa using h0) (6 + m + 6)
    have g2 := ticks_globals s 0 (by norm_num) (by simpa using h0) (6 + m)
    have e : (0 + (6 + m + 6)) % 6 = (0 + (6 + m)) % 6 := by omega
    rw [e] at g1
    have h1 : ticks (6 + (m + 1) + 6) s = TMR0 true (ticks (6 + m + 6) s) := by
      have : 6 + (m + 1) + 6 = (6 + m + 6) + 1 := by omega
      rw [this, ticks]
    have h2 : ticks (6 + (m + 1)) s = TMR0 true (ticks (6 + m) s) := by
      have : 6 + (m + 1) = (6 + m) + 1 := by omega
      rw [this, ticks]
    rw [h1, h2]
    exact TMR0_pins_congr _ _ _ (Nat.mod_lt _ (by norm_num)) g1.1 g2.1 (by rw [g2.2, g1.2]) ih

/-- Every cycle after the first shows the pin sequence of the second cycle. -/
theorem pins_cycles (s : State) (h0 : s.charlie_iter = 0) (n k : Nat) :
    pins (ticks (6 * (n + 1) + k) s) = pins (ticks (6 + k) s) := by
  induction n with
  | zero => rfl
  | succ n ih =>
    have e : 6 * (n + 1 + 1) + k = 6 + (6 * n + k) + 6 := by omega
    have e' : 6 * (n + 1) + k = 6 + (6 * n + k) := by omega
    rw [e, pins_periodic s h0, ← e', ih]

/-- C12 as stated fails: with `charlie_val = 0b000010` the first tick of the
first cycle leaves the pins as inputs (slot 0 is off and nothing has been lit
yet), while the first tick of the second cycle shows slot 1 still driven. -/
theorem first_cycle_differs :
    ¬ ∀ (s : State), s.charlie_iter = 0 → allHiZ s →
      ∀ n k : Nat, 1 ≤ k → k ≤ 6 → pins (ticks (6 * n + k) s) = pins (ticks k s) := by
  intro h
  have h1 := h ⟨0, 0, 0x02, 0⟩ rfl (by decide) 1 1 (by decide) (by decide)
  revert h1
  decide

/-- C12, amended: for a fixed `charlie_val`, from cursor 0 with the three pins
as inputs, the pin states (bits 0..2 of `P2DIR` and of `P2OUT`) after each of
the 6 ticks of a cycle are the same in every full cycle after the first. -/
theorem cycles_repeat_after_first (s : State) (h0 : s.charlie_iter = 0) (_hz : allHiZ s)
    (n k : Nat) (hn : 1 ≤ n) (_hk1 : 1 ≤ k) (_hk6 : k ≤ 6) :
    pins (ticks (6 * n + k) s) = pins (ticks (6 + k) s) := by
  obtain ⟨m, rfl⟩ : ∃ m, n = m + 1 := ⟨n - 1, by omega⟩
  exact pins_cycles s h0 m k

/-- The third cycle against the second for the pattern 0b000010. -/
theorem cycles_repeat_after_first_witness :
    ((⟨0, 0, 0x02, 0⟩ : State).charlie_iter = 0 ∧ allHiZ ⟨0, 0, 0x02, 0⟩ ∧ 1 ≤ 2 ∧ 1 ≤ 1 ∧
        1 ≤ 6) ∧
      pins (ticks (6 * 2 + 1) ⟨0, 0, 0x02, 0⟩) = pins (ticks (6 + 1) ⟨0, 0, 0x02, 0⟩) :=
  ⟨by decide, cycles_repeat_after_first ⟨0, 0, 0x02, 0⟩ rfl (by decide) 2 1 (by decide)
    (by decide) (by decide)⟩

/-- C19: for a slot `iter` in 0..5 whose bit of `val` is clear while
`(val & 0x3F) != 0`, `charlie(val, iter)` leaves `P2DIR` and `P2OUT` completely
unchanged, so through the tick of an unlit slot the pins keep the drive
configuration they had. -/
theorem unlit_slot_noop (val : Int) (i : Nat) (_hi : i < 6) (s : State)
    (hb : val.testBit i = false) (hz : Int.land val 0x3F ≠ 0) :
    ((charlie val i s).P2DIR = s.P2DIR ∧ (charlie val i s).P2OUT = s.P2OUT) ∧
      (s.charlie_val = val → s.charlie_iter = (i : Int) →
        (TMR0 true s).P2DIR = s.P2DIR ∧ (TMR0 true s).P2OUT = s.P2OUT ∧
        ∀ j, inSlot s j → inSlot (TMR0 true s) j) := by
  have hu := charlie_unlit val i s hb hz
  refine ⟨by rw [hu]; exact ⟨rfl, rfl⟩, fun hv hc => ?_⟩
  have hp := TMR0_pins s
  rw [hv, hc, hu] at hp
  refine ⟨hp.1, hp.2, fun j hj => ?_⟩
  rw [inSlot_TMR0, hv, hc, hu]
  exact hj

/-- Slot 3 unlit while LEDs 1 and 4 are on, the pins as slot 1 left them. -/
theorem unlit_slot_noop_witness :
    (3 < 6 ∧ Int.testBit 0x12 3 = false ∧ Int.land 0x12 0x3F ≠ 0) ∧
      (charlie 0x12 ((3 : Nat) : Int) ⟨0x06, 0x04, 0x12, 3⟩).P2DIR = 0x06 ∧
      (charlie 0x12 ((3 : Nat) : Int) ⟨0x06, 0x04, 0x12, 3⟩).P2OUT = 0x04 :=
  ⟨by decide, (unlit_slot_noop 0x12 3 (by decide) ⟨0x06, 0x04, 0x12, 3⟩ (by decide)
    (by decide)).1⟩

end Charlieplexed_LEDs

/-! ## Cycles and cursor of the seven-segment engine -/

namespace Seven_Segment_Display

/-- A tick at a cursor in range is `update7Seg` at the cursor followed by the
cursor update: the registers and the display state are as `update7Seg` left
them. -/
theorem TMR0_spec (s : State) (c : Nat) (hc : c < 4) (h : s.ssd_iter = (c : Int)) :
    ∃ u t, update7Seg c s = some u ∧ TMR0 true s = some t ∧
      t.P1DIR = u.P1DIR ∧ t.P1OUT = u.P1OUT ∧ t.P2DIR = u.P2DIR ∧ t.P2OUT = u.P2OUT ∧
      t.ssd_val = u.ssd_val ∧ t.ssd_dot = u.ssd_dot ∧
      t.ssd_iter = (((c + 1) % 4 : Nat) : Int) := by
  obtain ⟨v, hv⟩ := get?_isSome s.ssd_val c hc
  obtain ⟨d, hd⟩ := get?_isSome s.ssd_dot c hc
  obtain ⟨u, hu, ⟨-, -, -, -, h5⟩, -, -⟩ := update7Seg_spec c hc s v d hv hd
  by_cases h4c : u.ssd_iter + 1 = 4
  · refine ⟨u, { u with ssd_iter := 0 }, hu, ?_, rfl, rfl, rfl, rfl, rfl, rfl, ?_⟩
    · simp [TMR0, h, hu, h4c]
    · show (0 : Int) = _
      rw [h5, h] at h4c
      omega
  · refine ⟨u, { u with ssd_iter := u.ssd_iter + 1 }, hu, ?_, rfl, rfl, rfl, rfl, rfl, rfl, ?_⟩
    · simp [TMR0, h, hu, h4c]
    · show u.ssd_iter + 1 = _
      rw [h5, h] at h4c ⊢
      omega

/-- The pins after a tick depend only on the cursor and on the display state. -/
theorem TMR0_pinState (s s' : State) (c : Nat) (hc : c < 4) (h : s.ssd_iter = (c : Int))
    (h' : s'.ssd_iter = (c : Int)) (hv : s'.ssd_val = s.ssd_val) (hd : s'.ssd_dot = s.ssd_dot) :
    ∃ t t', TMR0 true s = some t ∧ TMR0 true s' = some t' ∧ pinState t = pinState t' := by
  obtain ⟨v, hv1⟩ := get?_isSome s.ssd_val c hc
  obtain ⟨d, hd1⟩ := get?_isSome s.ssd_dot c hc
  obtain ⟨u, t, hu, ht, -, e1, -, e2, -⟩ := TMR0_spec s c hc h
  obtain ⟨u', t', hu', ht', -, e1', -, e2', -⟩ := TMR0_spec s' c hc h'
  obtain ⟨w, hw, -, p1, p2⟩ := update7Seg_spec c hc s v d hv1 hd1
  obtain ⟨w', hw', -, p1', p2'⟩ := update7Seg_spec c hc s' v d (by rw [hv]; exact hv1)
    (by rw [hd]; exact hd1)
  rw [hu] at hw
  rw [hu'] at hw'
  cases hw
  cases hw'
  refine ⟨t, t', ht, ht', ?_⟩
  have hP2 : t.P2OUT = t'.P2OUT := by
    rw [e2, e2']
    exact Nat.eq_of_testBit_eq fun k => by rw [p2, p2']
  have hP1 : t.P1OUT &&& 0x0F = t'.P1OUT &&& 0x0F := by
    rw [e1, e1']
    apply Nat.eq_of_testBit_eq
    intro k
    have h15 : (0x0F : Nat) = 2 ^ 4 - 1 := by norm_num
    rw [Nat.testBit_and, Nat.testBit_and, p1, p1', h15, Nat.testBit_two_pow_sub_one]
    by_cases hk : k < 4
    · have h4 : ¬ 4 ≤ k := by omega
      simp [hk, h4]
    · simp [hk]
  simp only [pinState, hP2, hP1]

/-- C11: for fixed `ssd_val` and `ssd_dot`, from cursor 0 and any contents of
`P1OUT` and `P2OUT`, every tick has a result and the pin state
`(P2OUT, P1OUT & 0x0F)` after the `k`-th tick of any later full cycle is the
pin state after the `k`-th tick of the first cycle. -/
theorem cycle_idempotent (s : State) (h0 : s.ssd_iter = 0) (n k : Nat) (hk1 : 1 ≤ k)
    (_hk4 : k ≤ 4) :
    ∃ t t', ticks k s = some t ∧ ticks (4 * n + k) s = some t' ∧ pinState t' = pinState t := by
  obtain ⟨j, rfl⟩ : ∃ j, k = j + 1 := ⟨k - 1, by omega⟩
  have h0' : s.ssd_iter = ((0 : Nat) : Int) := by simpa using h0
  obtain ⟨a, ha, ca, va, da⟩ := ticks_cursor s 0 (by norm_num) h0' j
  obtain ⟨b, hb, cb, vb, db⟩ := ticks_cursor s 0 (by norm_num) h0' (4 * n + j)
  have e : (0 + (4 * n + j)) % 4 = (0 + j) % 4 := by omega
  rw [e] at cb
  obtain ⟨t, t', ht, ht', hp⟩ :=
    TMR0_pinState a b ((0 + j) % 4) (Nat.mod_lt _ (by norm_num)) ca cb (by rw [vb, va])
      (by rw [db, da])
  refine ⟨t, t', ?_, ?_, hp.symm⟩
  · simp [ticks, ha, ht]
  · have : 4 * n + (j + 1) = (4 * n + j) + 1 := by omega
    rw [this]
    simp [ticks, hb, ht']

/-- The second tick of the third cycle against the second tick of the first. -/
theorem cycle_idempotent_witness :
    ((⟨0, 0x31, 0, 0x55, ⟨1, 2, 3, 4⟩, ⟨0, 1, 0, 0⟩, 0⟩ : State).ssd_iter = 0 ∧ 1 ≤ 2 ∧ 2 ≤ 4) ∧
      ∃ t t', ticks 2 ⟨0, 0x31, 0, 0x55, ⟨1, 2, 3, 4⟩, ⟨0, 1, 0, 0⟩, 0⟩ = some t ∧
        ticks (4 * 2 + 2) ⟨0, 0x31, 0, 0x55, ⟨1, 2, 3, 4⟩, ⟨0, 1, 0, 0⟩, 0⟩ = some t' ∧
        pinState t' = pinState t :=
  ⟨by decide, cycle_idempotent ⟨0, 0x31, 0, 0x55, ⟨1, 2, 3, 4⟩, ⟨0, 1, 0, 0⟩, 0⟩ rfl 2 2
    (by decide) (by decide)⟩

/-- Every reachable state has its cursor in range. -/
theorem reachable_cursor (s : State) (h : Reachable s) : ∃ c : Nat, c < 4 ∧ s.ssd_iter = (c : Int) := by
  induction h with
  | start s h0 => exact ⟨0, by norm_num, by simpa using h0⟩
  | write s v d _ ih => exact ih
  | tick s t _ ht ih =>
    obtain ⟨c, hc, hcur⟩ := ih
    obtain ⟨u, t', -, ht', -, -, -, -, -, -, h7⟩ := TMR0_spec s c hc hcur
    rw [ht] at ht'
    cases ht'
    exact ⟨(c + 1) % 4, Nat.mod_lt _ (by norm_num), h7⟩

end Seven_Segment_Display

/-- C13: in both engines the cursor started at 0 equals `k mod N` after `k`
ticks (`N = 6` for `charlie_iter`, `N = 4` for `ssd_iter`) and lies in
`0..N-1` in every reachable state; so in every reachable state of the
seven-segment program `ssd_val[ssd_iter]` and `ssd_dot[ssd_iter]` are inside
the arrays and the tick has a result. -/
theorem cursor_in_range :
    ((∀ (s : Charlieplexed_LEDs.State), s.charlie_iter = 0 → ∀ k : Nat,
        (Charlieplexed_LEDs.ticks k s).charlie_iter = ((k % 6 : Nat) : Int)) ∧
      (∀ (s : Charlieplexed_LEDs.State), Charlieplexed_LEDs.Reachable s →
        0 ≤ s.charlie_iter ∧ s.charlie_iter ≤ 5)) ∧
    ((∀ (s : Seven_Segment_Display.State), s.ssd_iter = 0 → ∀ k : Nat,
        ∃ t, Seven_Segment_Display.ticks k s = some t ∧ t.ssd_iter = ((k % 4 : Nat) : Int)) ∧
      (∀ (s : Seven_Segment_Display.State), Seven_Segment_Display.Reachable s →
        (0 ≤ s.ssd_iter ∧ s.ssd_iter ≤ 3) ∧
        (∃ v, s.ssd_val.get? s.ssd_iter = some v) ∧ (∃ d, s.ssd_dot.get? s.ssd_iter = some d) ∧
        ∃ t, Seven_Segment_Display.TMR0 true s = some t)) := by
  refine ⟨⟨fun s h0 k => ?_, fun s h => ?_⟩, ⟨fun s h0 k => ?_, fun s h => ?_⟩⟩
  · have := (Charlieplexed_LEDs.ticks_globals s 0 (by norm_num) (by simpa using h0) k).1
    rw [Nat.zero_add] at this
    exact this
  · induction h with
    | start s _ h0 => rw [h0]; exact ⟨le_refl _, by norm_num⟩
    | write s v _ ih => exact ih
    | tick s _ ih =>
      rw [(Charlieplexed_LEDs.TMR0_globals s).1]
      split_ifs <;> omega
  · obtain ⟨t, ht, hc, -, -⟩ :=
      Seven_Segment_Display.ticks_cursor s 0 (by norm_num) (by simpa using h0) k
    rw [Nat.zero_add] at hc
    exact ⟨t, ht, hc⟩
  · obtain ⟨c, hc, hcur⟩ := Seven_Segment_Display.reachable_cursor s h
    obtain ⟨u, t, -, ht, -⟩ := Seven_Segment_Display.TMR0_spec s c hc hcur
    rw [hcur]
    exact ⟨⟨by omega, by omega⟩, Seven_Segment_Display.get?_isSome _ c hc,
      Seven_Segment_Display.get?_isSome _ c hc, t, ht⟩

/-- The cursors after seven ticks from reset. -/
theorem cursor_in_range_witness :
    ((⟨0, 0, 0x01, 0⟩ : Charlieplexed_LEDs.State).charlie_iter = 0 ∧
        (Charlieplexed_LEDs.ticks 7 ⟨0, 0, 0x01, 0⟩).charlie_iter = ((7 % 6 : Nat) : Int)) ∧
      ((⟨0, 0, 0, 0, ⟨0, 0, 0, 0⟩, ⟨0, 0, 0, 0⟩, 0⟩ : Seven_Segment_Display.State).ssd_iter = 0 ∧
        ∃ t, Seven_Segment_Display.ticks 7 ⟨0, 0, 0, 0, ⟨0, 0, 0, 0⟩, ⟨0, 0, 0, 0⟩, 0⟩ = some t ∧
          t.ssd_iter = ((7 % 4 : Nat) : Int)) :=
  ⟨⟨rfl, cursor_in_range.1.1 ⟨0, 0, 0x01, 0⟩ rfl 7⟩,
    ⟨rfl, cursor_in_range.2.1 ⟨0, 0, 0, 0, ⟨0, 0, 0, 0⟩, ⟨0, 0, 0, 0⟩, 0⟩ rfl 7⟩⟩

/-! ## Frames, LED pairs and the main-loop race -/

namespace Charlieplexed_LEDs

/-- The function `charlie` leaves bits 3..7 of `P2DIR` and `P2OUT` alone,
whatever slot and pattern it is given. -/
theorem charlie_frame (val iter : Int) (s : State) (j : Nat) (h3 : 3 ≤ j) (h8 : j < 8) :
    (charlie val iter s).P2DIR.testBit j = s.P2DIR.testBit j ∧
      (charlie val iter s).P2OUT.testBit j = s.P2OUT.testBit j := by
  have e0 : ¬ j = 0 := by omega
  have e1 : ¬ j = 1 := by omega
  have e2 : ¬ j = 2 := by omega
  unfold charlie
  split_ifs <;> (try split) <;>
    simp [-Nat.testBit_zero, testBit_regSet, testBit_regClr, CHARLIE_0_B, CHARLIE_1_B,
      CHARLIE_2_B, testBit_BIT0, testBit_BIT1, testBit_BIT2, e0, e1, e2, h8]

/-- The pair of pins that conducts after a lit slot, read off the pins. -/
theorem conducting_pair (val : Int) (i : Nat) (hi : i < 6) (s : State)
    (hb : val.testBit i = true) :
    ∃ d, slotTable[i]? = some d ∧ ledPairs.filter (conducts (charlie val i s)) = [(d.hi, d.lo)] := by
  obtain ⟨d, hd, h1, h2, h3, h4, h5⟩ := charlie_lit val i hi s hb
  refine ⟨d, hd, ?_⟩
  interval_cases i <;> simp [slotTable] at hd <;> subst hd <;>
    simp_all [ledPairs, List.filter, conducts]

/-- C17: the ordered pair (pin driven high, pin driven low) that conducts after
`charlie(val, i)` with bit `i` of `val` set depends on the slot alone, and as a
map from the six slots to the six ordered pairs of distinct pins among
{0, 1, 2} it is one-to-one and onto; no two slots give the same pair. -/
theorem distinct_pair_per_led :
    ∃ f : Nat → Nat × Nat,
      (∀ (val : Int) (i : Nat) (s : State), i < 6 → val.testBit i = true →
        ledPairs.filter (conducts (charlie val i s)) = [f i]) ∧
      (∀ i j, i < 6 → j < 6 → f i = f j → i = j) ∧
      (∀ p, p ∈ ledPairs → ∃ i, i < 6 ∧ f i = p) ∧
      (∀ i, i < 6 → f i ∈ ledPairs) := by
  refine ⟨fun i => ((slotTable.map fun d => (d.hi, d.lo)).getD i (0, 0)), ?_, ?_, ?_, ?_⟩
  · intro val i s hi hb
    obtain ⟨d, hd, hf⟩ := conducting_pair val i hi s hb
    rw [hf]
    interval_cases i <;> simp [slotTable] at hd <;> subst hd <;> simp [slotTable]
  · intro i j hi hj h
    interval_cases i <;> interval_cases j <;> simp [slotTable] at h <;> rfl
  · intro p hp
    simp only [ledPairs, List.mem_cons, List.mem_singleton, List.not_mem_nil, or_false] at hp
    rcases hp with rfl | rfl | rfl | rfl | rfl | rfl
    · exact ⟨3, by norm_num, by simp [slotTable]⟩
    · exact ⟨4, by norm_num, by simp [slotTable]⟩
    · exact ⟨5, by norm_num, by simp [slotTable]⟩
    · exact ⟨2, by norm_num, by simp [slotTable]⟩
    · exact ⟨0, by norm_num, by simp [slotTable]⟩
    · exact ⟨1, by norm_num, by simp [slotTable]⟩
  · intro i hi
    interval_cases i <;> simp [slotTable, ledPairs]

/-- Slots 2 and 5 use the same two pins with opposite polarity. -/
theorem distinct_pair_per_led_witness :
    (2 < 6 ∧ 5 < 6 ∧ Int.testBit 0x24 2 = true ∧ Int.testBit 0x24 5 = true) ∧
      ∃ p q, ledPairs.filter (conducts (charlie 0x24 ((2 : Nat) : Int) ⟨0, 0, 0x24, 2⟩)) = [p] ∧
        ledPairs.filter (conducts (charlie 0x24 ((5 : Nat) : Int) ⟨0, 0, 0x24, 5⟩)) = [q] ∧
        p ≠ q :=
  ⟨by decide,
    match distinct_pair_per_led with
    | ⟨f, h1, h2, _, _⟩ =>
      ⟨f 2, f 5, h1 0x24 2 ⟨0, 0, 0x24, 2⟩ (by decide) (by decide),
        h1 0x24 5 ⟨0, 0, 0x24, 5⟩ (by decide) (by decide),
        fun h => absurd (h2 2 5 (by decide) (by decide) h) (by decide)⟩⟩

end Charlieplexed_LEDs

/-- C14: a charlieplexed tick leaves `charlie_val` and bits 3..7 of `P2DIR` and
`P2OUT` as they were; a seven-segment tick leaves `ssd_val`, `ssd_dot`, `P1DIR`,
`P2DIR` and bits 4..7 of `P1OUT` as they were; one iteration of the
seven-segment main loop leaves `ssd_iter` and the four registers as they were. -/
theorem tick_frame :
    (∀ (s : Charlieplexed_LEDs.State),
      (Charlieplexed_LEDs.TMR0 true s).charlie_val = s.charlie_val ∧
      ∀ j, 3 ≤ j → j < 8 →
        ((Charlieplexed_LEDs.TMR0 true s).P2DIR.testBit j = s.P2DIR.testBit j ∧
          (Charlieplexed_LEDs.TMR0 true s).P2OUT.testBit j = s.P2OUT.testBit j)) ∧
    (∀ (s : Seven_Segment_Display.State) (c : Nat), c < 4 → s.ssd_iter = (c : Int) →
      ∃ t, Seven_Segment_Display.TMR0 true s = some t ∧
        t.ssd_val = s.ssd_val ∧ t.ssd_dot = s.ssd_dot ∧ t.P1DIR = s.P1DIR ∧
        t.P2DIR = s.P2DIR ∧ ∀ j, 4 ≤ j → j < 8 → t.P1OUT.testBit j = s.P1OUT.testBit j) ∧
    (∀ (s : Seven_Segment_Display.State),
      (Seven_Segment_Display.mainLoopBody s).ssd_iter = s.ssd_iter ∧
      (Seven_Segment_Display.mainLoopBody s).P1DIR = s.P1DIR ∧
      (Seven_Segment_Display.mainLoopBody s).P1OUT = s.P1OUT ∧
      (Seven_Segment_Display.mainLoopBody s).P2DIR = s.P2DIR ∧
      (Seven_Segment_Display.mainLoopBody s).P2OUT = s.P2OUT) := by
  refine ⟨fun s => ⟨(Charlieplexed_LEDs.TMR0_globals s).2, fun j h3 h8 => ?_⟩,
    fun s c hc hcur => ?_, fun s => ⟨rfl, rfl, rfl, rfl, rfl⟩⟩
  · have hp := Charlieplexed_LEDs.TMR0_pins s
    rw [hp.1, hp.2]
    exact Charlieplexed_LEDs.charlie_frame _ _ s j h3 h8
  · obtain ⟨v, hv⟩ := Seven_Segment_Display.get?_isSome s.ssd_val c hc
    obtain ⟨d, hd⟩ := Seven_Segment_Display.get?_isSome s.ssd_dot c hc
    obtain ⟨u, t, hu, ht, e1, e2, e3, -, e5, e6, -⟩ := Seven_Segment_Display.TMR0_spec s c hc hcur
    obtain ⟨w, hw, ⟨f1, f2, f3, f4, -⟩, p1, -⟩ :=
      Seven_Segment_Display.update7Seg_spec c hc s v d hv hd
    rw [hu] at hw
    cases hw
    refine ⟨t, ht, by rw [e5, f3], by rw [e6, f4], by rw [e1, f1], by rw [e3, f2],
      fun j h4 h8 => ?_⟩
    have hne : ¬ j = c := by omega
    rw [e2, p1]
    simp [h4, h8, hne]

/-- A tick of each engine from registers with all bits set. -/
theorem tick_frame_witness :
    ((3 ≤ 5 ∧ 5 < 8) ∧
        (Charlieplexed_LEDs.TMR0 true ⟨0xFF, 0xFF, 0x3F, 2⟩).P2DIR.testBit 5 =
          (⟨0xFF, 0xFF, 0x3F, 2⟩ : Charlieplexed_LEDs.State).P2DIR.testBit 5 ∧
        (Charlieplexed_LEDs.TMR0 true ⟨0xFF, 0xFF, 0x3F, 2⟩).P2OUT.testBit 5 =
          (⟨0xFF, 0xFF, 0x3F, 2⟩ : Charlieplexed_LEDs.State).P2OUT.testBit 5) ∧
      ((1 < 4 ∧
          (⟨0x0F, 0xFF, 0xFF, 0xFF, ⟨1, 2, 3, 4⟩, ⟨0, 1, 0, 0⟩, 1⟩ :
            Seven_Segment_Display.State).ssd_iter = ((1 : Nat) : Int)) ∧
        ∃ t, Seven_Segment_Display.TMR0 true
            ⟨0x0F, 0xFF, 0xFF, 0xFF, ⟨1, 2, 3, 4⟩, ⟨0, 1, 0, 0⟩, 1⟩ = some t ∧
          t.ssd_val = ⟨1, 2, 3, 4⟩ ∧ t.ssd_dot = ⟨0, 1, 0, 0⟩ ∧ t.P1DIR = 0x0F ∧
          t.P2DIR = 0xFF ∧ ∀ j, 4 ≤ j → j < 8 → t.P1OUT.testBit j = Nat.testBit 0xFF j) :=
  ⟨⟨by decide, (tick_frame.1 ⟨0xFF, 0xFF, 0x3F, 2⟩).2 5 (by decide) (by decide)⟩,
    ⟨⟨by decide, rfl⟩,
      tick_frame.2.1 ⟨0x0F, 0xFF, 0xFF, 0xFF, ⟨1, 2, 3, 4⟩, ⟨0, 1, 0, 0⟩, 1⟩ 1 (by decide) rfl⟩⟩

namespace Seven_Segment_Display

/-- Run to its end, the assignment-by-assignment iteration is `counterStep`. -/
theorem counterStepwise_cur (a : Arr4) : (counterStepwise a).cur = counterStep a := by
  simp only [counterStepwise, counterStep, Stepped.assign]
  split_ifs <;> rfl

/-- C18: the assignment-by-assignment iteration of the main loop ends in the
state `counterStep` gives, but from the digits `{9,9,9,0}` a tick arriving
right after the first assignment reads `{10,9,9,0}`: not the array before the
step, not the array after it, holding the value 10, which `Seg7` decodes to
the blank mask, so that a tick rendering slot 0 there leaves all seven segment
pins low. -/
theorem increment_not_atomic :
    (∀ a, (counterStepwise a).cur = counterStep a) ∧
      ∃ a m, digits a ∧ a = ⟨9, 9, 9, 0⟩ ∧ m ∈ (counterStepwise a).seen ∧
        m ≠ a ∧ m ≠ counterStep a ∧ m.e0 = 10 ∧ Seg7 m.e0 = 0 ∧
        ∀ s : State, s.ssd_val = m → s.ssd_iter = 0 →
          ∃ t, TMR0 true s = some t ∧ ∀ k, k < 7 → t.P2OUT.testBit k = false := by
  refine ⟨counterStepwise_cur, ⟨9, 9, 9, 0⟩, ⟨10, 9, 9, 0⟩, by decide, rfl, by decide, by decide,
    by decide, rfl, rfl, fun s hv h0 => ?_⟩
  have h0' : s.ssd_iter = ((0 : Nat) : Int) := by simpa using h0
  obtain ⟨d, hd⟩ := get?_isSome s.ssd_dot 0 (by norm_num)
  have hv0 : s.ssd_val.get? ((0 : Nat) : Int) = some 10 := by
    rw [hv]; rfl
  obtain ⟨u, t, hu, ht, -, -, -, e2, -⟩ := TMR0_spec s 0 (by norm_num) h0'
  obtain ⟨w, hw, -, -, p2⟩ := update7Seg_spec 0 (by norm_num) s 10 d hv0 hd
  rw [hu] at hw
  cases hw
  refine ⟨t, ht, fun k hk => ?_⟩
  have h7 : ¬ k = 7 := by omega
  have hs : Seg7 10 = 0 := rfl
  have hz : ∀ n, Int.testBit 0 n = false := fun n => Nat.zero_testBit n
  rw [e2, p2, hs, hz]
  simp [h7]

/-- The stepwise iteration and `counterStep` agree on 4321. -/
theorem increment_not_atomic_witness :
    (counterStepwise ⟨1, 2, 3, 4⟩).cur = counterStep ⟨1, 2, 3, 4⟩ :=
  increment_not_atomic.1 ⟨1, 2, 3, 4⟩

end Seven_Segment_Display

/-! ## LCD display: lemmas -/

namespace LCD_Display

/-- Bit `i` of the register after `if(c) R|=B; else R&=~B;`. -/
theorem testBit_regPut (c : Bool) (r b i : Nat) :
    (regPut c r b).testBit i =
      (decide (i < 8) && ((b.testBit i && c) || (!b.testBit i && r.testBit i))) := by
  cases c
  · simp only [regPut, Bool.false_eq_true, if_false, testBit_regClr]
    cases decide (i < 8) <;> cases b.testBit i <;> cases r.testBit i <;> rfl
  · simp only [regPut, if_true, testBit_regSet]
    cases decide (i < 8) <;> cases b.testBit i <;> cases r.testBit i <;> rfl

/-- The effect of `if(c) P2OUT|=b; else P2OUT&=~b;` field by field. -/
theorem ite_set_clr (c : Prop) [Decidable c] (b : Nat) (s : State) :
    (if c then setP2OUT b s else clrP2OUT b s).P2OUT = regPut (decide c) s.P2OUT b ∧
      (if c then setP2OUT b s else clrP2OUT b s).stores =
        s.stores ++ [regPut (decide c) s.P2OUT b] ∧
      (if c then setP2OUT b s else clrP2OUT b s).calls = s.calls ∧
      (if c then setP2OUT b s else clrP2OUT b s).P2DIR = s.P2DIR := by
  by_cases h : c <;> simp [h, setP2OUT, clrP2OUT, regPut]

/-- The effect of `if(c) P2OUT&=~b; else P2OUT|=b;` field by field. -/
theorem ite_clr_set (c : Prop) [Decidable c] (b : Nat) (s : State) :
    (if c then clrP2OUT b s else setP2OUT b s).P2OUT = regPut (!decide c) s.P2OUT b ∧
      (if c then clrP2OUT b s else setP2OUT b s).stores =
        s.stores ++ [regPut (!decide c) s.P2OUT b] ∧
      (if c then clrP2OUT b s else setP2OUT b s).calls = s.calls ∧
      (if c then clrP2OUT b s else setP2OUT b s).P2DIR = s.P2DIR := by
  by_cases h : c <;> simp [h, setP2OUT, clrP2OUT, regPut]

/-- The effect of `LCD_Enable` field by field. -/
theorem LCD_Enable_fields (s : State) :
    (LCD_Enable s).P2OUT = regClr (regSet s.P2OUT LCD_E_B) LCD_E_B ∧
      (LCD_Enable s).stores =
        s.stores ++ [regSet s.P2OUT LCD_E_B, regClr (regSet s.P2OUT LCD_E_B) LCD_E_B] ∧
      (LCD_Enable s).calls = s.calls ∧ (LCD_Enable s).P2DIR = s.P2DIR := by
  simp [LCD_Enable, setP2OUT, clrP2OUT]

/-- The test `x&0x01` reads bit 0 of `x`. -/
theorem land_one (d : Int) : decide (Int.land d 0x01 = 0) = !d.testBit 0 := by
  have h := Seven_Segment_Display.land_shift_one d 0
  have e : d >>> (0 : Nat) = d := by cases d <;> rfl
  rwa [e] at h

/-- Bit `j` of `d >> k` is bit `k + j` of `d`. -/
theorem testBit_shiftRight_int (d : Int) (k j : Nat) : (d >>> k).testBit j = d.testBit (k + j) := by
  cases d with
  | ofNat m =>
    show (m >>> k).testBit j = m.testBit (k + j)
    rw [Nat.testBit_shiftRight]
  | negSucc m =>
    show (!(m >>> k).testBit j) = (!m.testBit (k + j))
    rw [Nat.testBit_shiftRight]

/-- In a sequence of fourteen values where Enable keeps its level over the
first five steps, then is high, low, low four more times, high and low, the
two falling edges are at the seventh and the thirteenth value. -/
theorem fallingEdges_pulses (a0 a1 a2 a3 a4 a5 a6 a7 a8 a9 a10 a11 a12 a13 : Nat)
    (h1 : a1.testBit 4 = a0.testBit 4) (h2 : a2.testBit 4 = a0.testBit 4)
    (h3 : a3.testBit 4 = a0.testBit 4) (h4 : a4.testBit 4 = a0.testBit 4)
    (h5 : a5.testBit 4 = a0.testBit 4) (h6 : a6.testBit 4 = true) (h7 : a7.testBit 4 = false)
    (h8 : a8.testBit 4 = false) (h9 : a9.testBit 4 = false) (h10 : a10.testBit 4 = false)
    (h11 : a11.testBit 4 = false) (h12 : a12.testBit 4 = true) (h13 : a13.testBit 4 = false) :
    fallingEdges [a0, a1, a2, a3, a4, a5, a6, a7, a8, a9, a10, a11, a12, a13] = [a6, a12] ∧
      (a0.testBit 4 = false →
        [a0, a1, a2, a3, a4, a5, a6, a7, a8, a9, a10, a11, a12, a13].filter
          (fun x => x.testBit 4) = [a6, a12]) := by
  constructor
  · simp [fallingEdges, h1, h2, h3, h4, h5, h6, h7, h8, h9, h10, h11, h12, h13]
  · intro h0
    rw [h0] at h1 h2 h3 h4 h5
    simp [List.filter, h0, h1, h2, h3, h4, h5, h6, h7, h8, h9, h10, h11, h12, h13]

/-- What `LCD_Write` puts on the pins: Enable falls exactly twice, and at each
fall the pins hold the Register Select level for `di` and one nibble of `val`,
high nibble first, above the untouched bits 6 and 7. -/
theorem LCD_Write_latched (di val : Int) (s : State) :
    ∃ A B, fallingEdges (valuesSince s (LCD_Write di val s)) = [A, B] ∧
      (s.P2OUT.testBit 4 = false →
        (valuesSince s (LCD_Write di val s)).filter (fun x => x.testBit 4) = [A, B]) ∧
      (∀ j, A.testBit j = (decide (j < 8) &&
        ((decide (j = 0) && val.testBit 4) || (decide (j = 1) && val.testBit 5) ||
          (decide (j = 2) && val.testBit 6) || (decide (j = 3) && val.testBit 7) ||
          decide (j = 4) || (decide (j = 5) && decide (di ≠ 0)) ||
          (decide (6 ≤ j) && s.P2OUT.testBit j)))) ∧
      (∀ j, B.testBit j = (decide (j < 8) &&
        ((decide (j = 0) && val.testBit 0) || (decide (j = 1) && val.testBit 1) ||
          (decide (j = 2) && val.testBit 2) || (decide (j = 3) && val.testBit 3) ||
          decide (j = 4) || (decide (j = 5) && decide (di ≠ 0)) ||
          (decide (6 ≤ j) && s.P2OUT.testBit j)))) := by
  have t0 : Int.testBit 15 0 = true := by decide
  have t1 : Int.testBit 15 1 = true := by decide
  have t2 : Int.testBit 15 2 = true := by decide
  have t3 : Int.testBit 15 3 = true := by decide
  simp only [LCD_Write, valuesSince, (ite_set_clr _ _ _).1, (ite_clr_set _ _ _).1,
    (LCD_Enable_fields _).1, (ite_set_clr _ _ _).2.1, (ite_clr_set _ _ _).2.1,
    (LCD_Enable_fields _).2.1, List.append_assoc, List.drop_left, List.singleton_append,
    List.cons_append, List.nil_append, ← Int.shiftRight_add, Nat.reduceAdd]
  refine ⟨_, _, (fallingEdges_pulses _ _ _ _ _ _ _ _ _ _ _ _ _ _ ?_ ?_ ?_ ?_ ?_ ?_ ?_ ?_ ?_ ?_ ?_
    ?_ ?_).1, (fallingEdges_pulses _ _ _ _ _ _ _ _ _ _ _ _ _ _ ?_ ?_ ?_ ?_ ?_ ?_ ?_ ?_ ?_ ?_ ?_
    ?_ ?_).2, fun j => ?_, fun j => ?_⟩
  all_goals first
    | (simp [-Nat.testBit_zero, testBit_regPut, testBit_regSet, testBit_regClr, LCD_D7_B, LCD_D6_B,
        LCD_D5_B, LCD_D4_B, LCD_E_B, LCD_RS_B, testBit_BIT0, testBit_BIT1, testBit_BIT2,
        testBit_BIT3, testBit_BIT4, testBit_BIT5]; done)
    | (by_cases hj : j < 8
       · interval_cases j <;>
           simp [-Nat.testBit_zero, testBit_regPut, testBit_regSet, testBit_regClr, LCD_D7_B,
             LCD_D6_B, LCD_D5_B, LCD_D4_B, LCD_E_B, LCD_RS_B, testBit_BIT0, testBit_BIT1,
             testBit_BIT2, testBit_BIT3, testBit_BIT4, testBit_BIT5,
             land_one, testBit_shiftRight_int, Int.testBit_land, t0, t1, t2, t3]
       · simp [-Nat.testBit_zero, testBit_regSet, hj])

/-- Bit `k` of a natural number below 256 is clear from position 8 on. -/
theorem testBit_of_lt_256 (v : Nat) (hv : v < 256) (k : Nat) (hk : 8 ≤ k) : v.testBit k = false := by
  apply Nat.testBit_lt_two_pow
  calc v < 2 ^ 8 := by simpa using hv
    _ ≤ 2 ^ k := Nat.pow_le_pow_right (by norm_num) hk

/-- C15: for every `di` and every `val` in 0..255, during a call of `LCD_Write`
the Enable pin (bit 4 of `P2OUT`) falls exactly twice; at both falls Register
Select (bit 5) is low if `di == 0` and high otherwise; the data pins (bits
3..0) carry `val >> 4` at the first fall and `val & 0x0F` at the second, and
`16*first + second == val`; Enable is low on return; bits 6 and 7 keep their
value throughout.  When Enable is low on entry, the two values at the falls are
the only values of `P2OUT` with Enable high. -/
theorem LCD_Write_two_nibbles (di : Int) (v : Nat) (hv : v < 256) (s : State) :
    (fallingEdges (valuesSince s (LCD_Write di v s))).map (fun x => (x.testBit 5, x % 16)) =
        [(decide (di ≠ 0), v >>> 4), (decide (di ≠ 0), v &&& 0x0F)] ∧
      16 * (v >>> 4) + (v &&& 0x0F) = v ∧
      (LCD_Write di v s).P2OUT.testBit 4 = false ∧
      (∀ x ∈ valuesSince s (LCD_Write di v s),
        x.testBit 6 = s.P2OUT.testBit 6 ∧ x.testBit 7 = s.P2OUT.testBit 7) ∧
      ((LCD_Write di v s).P2OUT.testBit 6 = s.P2OUT.testBit 6 ∧
        (LCD_Write di v s).P2OUT.testBit 7 = s.P2OUT.testBit 7) ∧
      (s.P2OUT.testBit 4 = false →
        (valuesSince s (LCD_Write di v s)).filter (fun x => x.testBit 4) =
          fallingEdges (valuesSince s (LCD_Write di v s))) := by
  obtain ⟨A, B, hAB, hfil, hA, hB⟩ := LCD_Write_latched di v s
  have hcast : ∀ k, Int.testBit (v : Int) k = v.testBit k := fun k => rfl
  have h16 : (16 : Nat) = 2 ^ 4 := by norm_num
  have h15 : (0x0F : Nat) = 2 ^ 4 - 1 := by norm_num
  have hAn : A % 16 = v >>> 4 := by
    apply Nat.eq_of_testBit_eq
    intro j
    rw [h16, Nat.testBit_mod_two_pow, hA, Nat.testBit_shiftRight]
    simp only [hcast]
    by_cases hj : j < 4
    · interval_cases j <;> simp
    · have := testBit_of_lt_256 v hv (4 + j) (by omega)
      simp [hj, this]
  have hBn : B % 16 = v &&& 0x0F := by
    apply Nat.eq_of_testBit_eq
    intro j
    rw [h16, Nat.testBit_mod_two_pow, hB, Nat.testBit_and, h15, Nat.testBit_two_pow_sub_one]
    simp only [hcast]
    by_cases hj : j < 4
    · interval_cases j <;> simp
    · simp [hj]
  refine ⟨?_, ?_, ?_, ?_, ?_, fun h0 => by rw [hfil h0, hAB]⟩
  · rw [hAB]
    simp [hA, hB, hAn, hBn]
  · rw [Nat.shiftRight_eq_div_pow, h15, Nat.and_pow_two_sub_one_eq_mod]
    omega
  · simp [-Nat.testBit_zero, LCD_Write, (ite_set_clr _ _ _).1, (ite_clr_set _ _ _).1,
      (LCD_Enable_fields _).1, testBit_regClr, LCD_E_B, testBit_BIT4]
  · simp only [LCD_Write, valuesSince, (ite_set_clr _ _ _).1, (ite_clr_set _ _ _).1,
      (LCD_Enable_fields _).1, (ite_set_clr _ _ _).2.1, (ite_clr_set _ _ _).2.1,
      (LCD_Enable_fields _).2.1, List.append_assoc, List.drop_left, List.singleton_append,
      List.cons_append, List.nil_append]
    simp [-Nat.testBit_zero, testBit_regPut, testBit_regSet, testBit_regClr, LCD_D7_B, LCD_D6_B,
      LCD_D5_B, LCD_D4_B, LCD_E_B, LCD_RS_B, testBit_BIT0, testBit_BIT1, testBit_BIT2,
      testBit_BIT3, testBit_BIT4, testBit_BIT5]
  · simp [-Nat.testBit_zero, LCD_Write, (ite_set_clr _ _ _).1, (ite_clr_set _ _ _).1,
      (LCD_Enable_fields _).1, testBit_regPut, testBit_regSet, testBit_regClr, LCD_D7_B, LCD_D6_B,
      LCD_D5_B, LCD_D4_B, LCD_E_B, LCD_RS_B, testBit_BIT0, testBit_BIT1, testBit_BIT2,
      testBit_BIT3, testBit_BIT4, testBit_BIT5]

/-- The byte 0xA7 sent as data from a port holding 0xC0. -/
theorem LCD_Write_two_nibbles_witness :
    (0xA7 < 256) ∧
      (fallingEdges (valuesSince ⟨0x3F, 0xC0, [], []⟩
          (LCD_Write 1 ((0xA7 : Nat) : Int) ⟨0x3F, 0xC0, [], []⟩))).map
          (fun x => (x.testBit 5, x % 16)) =
        [(decide ((1 : Int) ≠ 0), 0xA7 >>> 4), (decide ((1 : Int) ≠ 0), 0xA7 &&& 0x0F)] :=
  ⟨by decide, (LCD_Write_two_nibbles 1 0xA7 (by decide) ⟨0x3F, 0xC0, [], []⟩).1⟩


end LCD_Display
